import Mathlib

/-!
Verification of the pinmaker layout-and-render core against its source.

The TypeScript/JavaScript source is shallowly embedded: JS numbers are
modelled as exact rationals (`ℚ`), JS integer loop variables as `ℕ`,
arrays as `List`, and the stateful PDF emission loops as folds producing
explicit event traces.  `Math.round` is `⌊q + 1/2⌋`, `Math.floor` on a
nonnegative quantity is `Int.toNat ∘ Int.floor`, `Math.ceil(a / b)` on
naturals is `(a + b - 1) / b`, and `Math.ceil(Math.sqrt n)` is the least
`k` with `n ≤ k * k`.
-/

namespace Pinmaker

/-- JS `Math.round q` (round half up), as an integer. -/
def jsRound (q : ℚ) : ℤ := ⌊q + 1/2⌋

/-- JS `Math.ceil (a / b)` for natural `a`, positive natural `b`. -/
def jsCeilDiv (a b : ℕ) : ℕ := (a + b - 1) / b

/-- JS `Math.ceil (Math.sqrt n)` for a natural `n`: the least `k` with `n ≤ k * k`. -/
def jsCeilSqrt (n : ℕ) : ℕ :=
  if Nat.sqrt n * Nat.sqrt n = n then Nat.sqrt n else Nat.sqrt n + 1

/-- Millimetre-to-point conversion factor used throughout the source (`2.83465`). -/
def mmToPt : ℚ := 2.83465

/-- Page geometry constants, from `src/src/types.ts` (`LayoutConfig` / `A4_PAGE`). -/
structure LayoutConfig where
  pageWidth : ℚ
  pageHeight : ℚ
  margin : ℚ
  spacing : ℚ

/-- The fixed A4 page geometry from `src/src/types.ts`. -/
def A4_PAGE : LayoutConfig :=
  { pageWidth := 595.28, pageHeight := 841.89, margin := 28.35, spacing := 14.17 }

/-- Pin-size profile, from `src/src/types.ts` (`PinConfig`). -/
structure PinConfig where
  pinSize : ℚ
  pinSizePt : ℚ
  circleSize : ℚ
  circleSizePt : ℚ
  circlesPerPage : ℕ
deriving DecidableEq

/-- The 32mm CLI profile from `PIN_CONFIGS` in `src/src/types.ts`. -/
def PIN_CONFIG_32 : PinConfig :=
  { pinSize := 32, pinSizePt := 32 * mmToPt, circleSize := 43, circleSizePt := 43 * mmToPt,
    circlesPerPage := 20 }

/-- The 58mm CLI profile from `PIN_CONFIGS` in `src/src/types.ts`. -/
def PIN_CONFIG_58 : PinConfig :=
  { pinSize := 58, pinSizePt := 58 * mmToPt, circleSize := 70, circleSizePt := 70 * mmToPt,
    circlesPerPage := 6 }

/-- The 32mm web profile from `src/web/src/core/types.js` (pin area enlarged to 36mm). -/
def WEB_PIN_CONFIG_32 : PinConfig :=
  { pinSize := 36, pinSizePt := 36 * mmToPt, circleSize := 43, circleSizePt := 43 * mmToPt,
    circlesPerPage := 20 }

/-- A circle centre with its zero-based page index (`CirclePosition` in `src/src/types.ts`). -/
structure CirclePosition where
  x : ℚ
  y : ℚ
  page : ℕ
deriving DecidableEq

/-- Result record of `calculatePageLayout` in `src/src/core/layout.ts`. -/
structure PageLayout where
  rows : ℕ
  cols : ℕ
  startX : ℚ
  startY : ℚ
deriving DecidableEq

/-- Printable width `A4_PAGE.pageWidth - 2 * A4_PAGE.margin` (layout.ts line 50). -/
def availableWidth : ℚ := A4_PAGE.pageWidth - 2 * A4_PAGE.margin

/-- Printable height `A4_PAGE.pageHeight - 2 * A4_PAGE.margin` (layout.ts line 51). -/
def availableHeight : ℚ := A4_PAGE.pageHeight - 2 * A4_PAGE.margin

/-- Total grid height `rows * d + (rows - 1) * spacing` (layout.ts lines 64, 76). -/
def totalHeightUsed (rows : ℕ) (d : ℚ) : ℚ :=
  rows * d + ((rows : ℚ) - 1) * A4_PAGE.spacing

/-- Total grid width `cols * d + (cols - 1) * spacing` (layout.ts line 75). -/
def totalWidthUsed (cols : ℕ) (d : ℚ) : ℚ :=
  cols * d + ((cols : ℚ) - 1) * A4_PAGE.spacing

/-- Maximum columns that fit in the page width (layout.ts line 54):
`Math.floor((availableWidth + spacing) / (circleDiameter + spacing))`. -/
def maxColsFor (d : ℚ) : ℕ :=
  (⌊(availableWidth + A4_PAGE.spacing) / (d + A4_PAGE.spacing)⌋).toNat

/-- The loop body test of layout.ts lines 62-71: do `ceil(circleCount / cols)` rows of
circles of diameter `d`, stacked with spacing, fit in the available page height? -/
def heightFits (circleCount cols : ℕ) (d : ℚ) : Bool :=
  decide (totalHeightUsed (jsCeilDiv circleCount cols) d ≤ availableHeight)

/-- Embedding of `calculatePageLayout` (layout.ts lines 46-82): scan `cols = 1..maxCols`
for the first column count whose grid fits the page height; fall back to the
`ceil(sqrt n)` initialiser when none does; then centre the grid on the page. -/
def calculatePageLayout (circleCount : ℕ) (d : ℚ) : PageLayout :=
  let bestCols :=
    match (List.range' 1 (maxColsFor d)).find? (fun cols => heightFits circleCount cols d) with
    | some cols => cols
    | none => jsCeilSqrt circleCount
  let bestRows := jsCeilDiv circleCount bestCols
  { rows := bestRows
    cols := bestCols
    startX := (A4_PAGE.pageWidth - totalWidthUsed bestCols d) / 2
    startY := (A4_PAGE.pageHeight - totalHeightUsed bestRows d) / 2 }

/-- Circles assigned to a given page (layout.ts lines 19-22):
`min(circlesPerPage, totalCircles - page * circlesPerPage)`. -/
def circlesOnPage (totalCircles cpp page : ℕ) : ℕ :=
  min cpp (totalCircles - page * cpp)

/-- Position of the `i`-th circle on a page (layout.ts lines 28-36): circle `i`
sits in row `⌊i / cols⌋`, column `i % cols` (integer arithmetic), offset from the
centred grid origin by `diameter + spacing` per row/column plus half a diameter. -/
def gridPos (totalCircles : ℕ) (cfg : PinConfig) (page i : ℕ) : CirclePosition :=
  { x := (calculatePageLayout (circlesOnPage totalCircles cfg.circlesPerPage page)
        cfg.circleSizePt).startX +
      ((i % (calculatePageLayout (circlesOnPage totalCircles cfg.circlesPerPage page)
        cfg.circleSizePt).cols : ℕ) : ℚ) * (cfg.circleSizePt + A4_PAGE.spacing) +
      cfg.circleSizePt / 2
    y := (calculatePageLayout (circlesOnPage totalCircles cfg.circlesPerPage page)
        cfg.circleSizePt).startY +
      ((i / (calculatePageLayout (circlesOnPage totalCircles cfg.circlesPerPage page)
        cfg.circleSizePt).cols : ℕ) : ℚ) * (cfg.circleSizePt + A4_PAGE.spacing) +
      cfg.circleSizePt / 2
    page := page }

/-- Positions generated for one page by the inner loop of `calculateLayout`. -/
def pagePositions (totalCircles : ℕ) (cfg : PinConfig) (page : ℕ) : List CirclePosition :=
  (List.range (circlesOnPage totalCircles cfg.circlesPerPage page)).map
    (gridPos totalCircles cfg page)

/-- Embedding of `calculateLayout` (layout.ts lines 7-40). -/
def calculateLayout (totalCircles : ℕ) (config : PinConfig) : List CirclePosition :=
  if totalCircles = 0 then []
  else
    (List.range (jsCeilDiv totalCircles config.circlesPerPage)).flatMap
      (pagePositions totalCircles config)

/-- Embedding of `getTotalPages` (layout.ts lines 87-90). -/
def getTotalPages (positions : List CirclePosition) : ℕ :=
  if positions.isEmpty then 0
  else (positions.map (fun p => p.page)).foldl max 0 + 1

/-- Embedding of `createImageDistribution` (`src/src/core/pdf-generator.ts` lines 335-352). -/
def createImageDistribution (imageCount totalCircles : ℕ) : List ℕ :=
  if imageCount ≤ totalCircles then
    (List.range imageCount).flatMap (fun imageIdx =>
      List.replicate
        (totalCircles / imageCount + if imageIdx < totalCircles % imageCount then 1 else 0)
        imageIdx)
  else
    List.range totalCircles

/-- Copies of item `i` prescribed by the even-duplication branch. -/
def copiesOf (imageCount totalCircles i : ℕ) : ℕ :=
  totalCircles / imageCount + if i < totalCircles % imageCount then 1 else 0

lemma count_flatMap_replicate (c : ℕ → ℕ) (m i : ℕ) :
    ((List.range m).flatMap (fun j => List.replicate (c j) j)).count i =
      if i < m then c i else 0 := by
  induction m with
  | zero => simp
  | succ m ih =>
    rw [List.range_succ, List.flatMap_append, List.count_append]
    simp only [List.flatMap_cons, List.flatMap_nil, List.append_nil, List.count_replicate]
    rcases lt_trichotomy i m with h | h | h
    · simp [ih, h, Nat.lt_succ_of_lt h, Nat.ne_of_gt h]
    · subst h
      simp [ih, Nat.lt_succ_self]
    · have h1 : ¬ i < m := by omega
      have h2 : ¬ i < m + 1 := by omega
      simp [ih, h1, h2, Nat.ne_of_lt h]

lemma mem_flatMap_replicate_lt {c : ℕ → ℕ} {m x : ℕ}
    (hx : x ∈ (List.range m).flatMap (fun j => List.replicate (c j) j)) : x < m := by
  rcases List.mem_flatMap.mp hx with ⟨j, hj, hxj⟩
  rcases List.eq_of_mem_replicate hxj with rfl
  exact List.mem_range.mp hj

lemma sorted_le_replicate (n a : ℕ) : (List.replicate n a).Sorted (· ≤ ·) := by
  induction n with
  | zero => simp
  | succ n ih =>
    rw [List.replicate_succ, List.sorted_cons]
    exact ⟨fun b hb => le_of_eq (List.eq_of_mem_replicate hb).symm, ih⟩

lemma sorted_flatMap_replicate (c : ℕ → ℕ) (m : ℕ) :
    ((List.range m).flatMap (fun j => List.replicate (c j) j)).Sorted (· ≤ ·) := by
  induction m with
  | zero => simp
  | succ m ih =>
    rw [List.range_succ, List.flatMap_append]
    simp only [List.flatMap_cons, List.flatMap_nil, List.append_nil]
    refine List.pairwise_append.mpr ⟨ih, sorted_le_replicate _ _, ?_⟩
    intro a ha b hb
    rcases List.eq_of_mem_replicate hb with rfl
    exact le_of_lt (mem_flatMap_replicate_lt ha)

lemma sum_map_range_copies (q r m : ℕ) (hr : r ≤ m) :
    ((List.range m).map (fun i => q + if i < r then 1 else 0)).sum = m * q + r := by
  induction m with
  | zero =>
    have : r = 0 := Nat.le_zero.mp hr
    simp [this]
  | succ m ih =>
    rw [List.range_succ, List.map_append, List.sum_append]
    simp only [List.map_cons, List.map_nil, List.sum_cons, List.sum_nil]
    rcases Nat.lt_or_ge r (m + 1) with h | h
    · have hrm : r ≤ m := by omega
      have hmr : ¬ m < r := by omega
      rw [ih hrm]
      simp only [hmr, if_false]
      ring
    · have hrm : r = m + 1 := by omega
      subst hrm
      have hmap : (List.range m).map (fun i => q + if i < m + 1 then 1 else 0) =
          (List.range m).map (fun _ => q + 1) := by
        apply List.map_congr_left
        intro i hi
        have h1 : i < m + 1 := Nat.lt_succ_of_lt (List.mem_range.mp hi)
        simp [h1]
      rw [hmap, List.map_const', List.sum_replicate]
      simp only [smul_eq_mul, List.length_range, Nat.lt_succ_self, if_true]
      ring

lemma createImageDistribution_length (m t : ℕ) (h1 : 1 ≤ m) (h2 : m ≤ t) :
    (createImageDistribution m t).length = t := by
  rw [createImageDistribution, if_pos h2, List.length_flatMap]
  have hmap : (List.range m).map (List.length ∘ fun imageIdx =>
      List.replicate (t / m + if imageIdx < t % m then 1 else 0) imageIdx) =
      (List.range m).map (fun i => t / m + if i < t % m then 1 else 0) := by
    apply List.map_congr_left
    intro i _
    simp
  rw [hmap, sum_map_range_copies _ _ _ (le_of_lt (Nat.mod_lt t h1))]
  exact Nat.div_add_mod t m

/-- C1: for `1 ≤ itemCount ≤ totalSlots`, `createImageDistribution` returns a list of
length `totalSlots` in which item `i` occurs `⌊totalSlots/itemCount⌋ + 1` times when
`i < totalSlots % itemCount` and `⌊totalSlots/itemCount⌋` times otherwise, sorted in
non-decreasing order (hence all copies of an item are contiguous and the items appear
in increasing order, not interleaved); in particular
`createDistribution 3 20 = [0,0,0,0,0,0,0,1,1,1,1,1,1,1,2,2,2,2,2,2]`. -/
theorem c1_createImageDistribution_spec (itemCount totalSlots : ℕ)
    (h1 : 1 ≤ itemCount) (h2 : itemCount ≤ totalSlots) :
    (createImageDistribution itemCount totalSlots).length = totalSlots ∧
    (∀ i, i < itemCount →
      (createImageDistribution itemCount totalSlots).count i =
        totalSlots / itemCount + if i < totalSlots % itemCount then 1 else 0) ∧
    (createImageDistribution itemCount totalSlots).Sorted (· ≤ ·) ∧
    createImageDistribution 3 20 = [0,0,0,0,0,0,0,1,1,1,1,1,1,1,2,2,2,2,2,2] := by
  refine ⟨createImageDistribution_length _ _ h1 h2, ?_, ?_, by decide⟩
  · intro i hi
    rw [createImageDistribution, if_pos h2, count_flatMap_replicate, if_pos hi]
  · rw [createImageDistribution, if_pos h2]
    exact sorted_flatMap_replicate _ _

/-- Witness for C1 at `itemCount = 3`, `totalSlots = 20`. -/
theorem c1_createImageDistribution_spec_witness :
    (createImageDistribution 3 20).length = 20 ∧
    (∀ i, i < 3 →
      (createImageDistribution 3 20).count i = 20 / 3 + if i < 20 % 3 then 1 else 0) ∧
    (createImageDistribution 3 20).Sorted (· ≤ ·) ∧
    createImageDistribution 3 20 = [0,0,0,0,0,0,0,1,1,1,1,1,1,1,2,2,2,2,2,2] :=
  c1_createImageDistribution_spec 3 20 (by decide) (by decide)

/-- Proposition form of the loop test of `calculatePageLayout`. -/
def heightFitsP (n c : ℕ) (d : ℚ) : Prop :=
  totalHeightUsed (jsCeilDiv n c) d ≤ availableHeight

lemma heightFits_iff (n c : ℕ) (d : ℚ) : heightFits n c d = true ↔ heightFitsP n c d := by
  simp [heightFits, heightFitsP]

lemma find?_range'_spec_some {p : ℕ → Bool} {a len c : ℕ}
    (h : (List.range' a len).find? p = some c) :
    p c = true ∧ a ≤ c ∧ c < a + len ∧ ∀ b, a ≤ b → b < c → p b = false := by
  induction len generalizing a with
  | zero => simp at h
  | succ len ih =>
    rw [List.range'_succ] at h
    by_cases hpa : p a
    · rw [List.find?_cons_of_pos _ hpa] at h
      rcases Option.some_inj.mp h with rfl
      exact ⟨hpa, le_rfl, by omega, fun b hb1 hb2 => absurd hb1 (by omega)⟩
    · rw [List.find?_cons_of_neg _ hpa] at h
      obtain ⟨h1, h2, h3, h4⟩ := ih h
      refine ⟨h1, by omega, by omega, fun b hb1 hb2 => ?_⟩
      rcases Nat.eq_or_lt_of_le hb1 with rfl | hb
      · exact Bool.of_not_eq_true hpa
      · exact h4 b hb hb2

lemma le_maxColsFor_iff (d : ℚ) (hd : 0 < d) (c : ℕ) :
    c ≤ maxColsFor d ↔ totalWidthUsed c d ≤ availableWidth := by
  have hs : A4_PAGE.spacing = 14.17 := rfl
  have hds : 0 < d + A4_PAGE.spacing := by rw [hs]; linarith
  have hq : (0 : ℚ) ≤ (availableWidth + A4_PAGE.spacing) / (d + A4_PAGE.spacing) := by
    apply div_nonneg _ (le_of_lt hds)
    have : availableWidth = 538.58 := by norm_num [availableWidth, A4_PAGE]
    rw [this, hs]; norm_num
  rw [maxColsFor, Int.le_toNat (Int.floor_nonneg.mpr hq), Int.le_floor,
    le_div_iff₀ hds, totalWidthUsed]
  push_cast
  constructor <;> intro <;> linarith

/-- C2: for `n ≥ 1` circles of diameter `d > 0`, `calculatePageLayout` picks as column
count the smallest `cols` in `1..maxCols` whose `ceil(n/cols)` rows fit the available
page height, where `maxCols` is exactly the number of circles (with spacing) that fit
the available page width; and when no column count in that range fits the height it
falls back to `cols = ceil(sqrt n)`, `rows = ceil(n/cols)`, without failing. -/
theorem c2_calculatePageLayout_spec (n : ℕ) (d : ℚ) (hn : 1 ≤ n) (hd : 0 < d) :
    (∀ c : ℕ, c ≤ maxColsFor d ↔ totalWidthUsed c d ≤ availableWidth) ∧
    ((∃ c, 1 ≤ c ∧ c ≤ maxColsFor d ∧ heightFitsP n c d) →
      1 ≤ (calculatePageLayout n d).cols ∧
      (calculatePageLayout n d).cols ≤ maxColsFor d ∧
      heightFitsP n (calculatePageLayout n d).cols d ∧
      (∀ c, 1 ≤ c → c < (calculatePageLayout n d).cols → ¬ heightFitsP n c d) ∧
      (calculatePageLayout n d).rows = jsCeilDiv n (calculatePageLayout n d).cols) ∧
    ((∀ c, 1 ≤ c → c ≤ maxColsFor d → ¬ heightFitsP n c d) →
      (calculatePageLayout n d).cols = jsCeilSqrt n ∧
      (calculatePageLayout n d).rows = jsCeilDiv n (jsCeilSqrt n)) := by
  refine ⟨fun c => le_maxColsFor_iff d hd c, ?_, ?_⟩ <;>
    cases hfind : (List.range' 1 (maxColsFor d)).find? (fun cols => heightFits n cols d)
  · intro ⟨c, hc1, hc2, hc3⟩
    have hnone := List.find?_eq_none.mp hfind c
      (List.mem_range'_1.mpr ⟨hc1, by omega⟩)
    exact absurd ((heightFits_iff n c d).mpr hc3) (by simpa using hnone)
  · intro _
    obtain ⟨h1, h2, h3, h4⟩ := find?_range'_spec_some hfind
    refine ⟨?_, ?_, ?_, ?_, ?_⟩ <;>
      simp only [calculatePageLayout, hfind] <;>
      first
        | exact h2
        | exact (by omega : _ < 1 + maxColsFor d → _ ≤ maxColsFor d) h3
        | exact (heightFits_iff _ _ _).mp h1
        | (intro c hc1 hc2 hc3
           exact absurd ((heightFits_iff n c d).mpr hc3)
             (by simpa using h4 c hc1 hc2))
  · intro _
    constructor <;> simp [calculatePageLayout, hfind]
  · intro hall
    obtain ⟨h1, h2, h3, _⟩ := find?_range'_spec_some hfind
    exact absurd ((heightFits_iff _ _ _).mp h1)
      (hall _ h2 (by omega))

lemma circleSizePt_32_pos : 0 < PIN_CONFIG_32.circleSizePt := by
  norm_num [PIN_CONFIG_32, mmToPt]

/-- Witness for C2 at `n = 20` circles of the 32mm cutting-circle diameter. -/
theorem c2_calculatePageLayout_spec_witness :
    (∀ c : ℕ, c ≤ maxColsFor PIN_CONFIG_32.circleSizePt ↔
      totalWidthUsed c PIN_CONFIG_32.circleSizePt ≤ availableWidth) ∧
    ((∃ c, 1 ≤ c ∧ c ≤ maxColsFor PIN_CONFIG_32.circleSizePt ∧
        heightFitsP 20 c PIN_CONFIG_32.circleSizePt) →
      1 ≤ (calculatePageLayout 20 PIN_CONFIG_32.circleSizePt).cols ∧
      (calculatePageLayout 20 PIN_CONFIG_32.circleSizePt).cols ≤
        maxColsFor PIN_CONFIG_32.circleSizePt ∧
      heightFitsP 20 (calculatePageLayout 20 PIN_CONFIG_32.circleSizePt).cols
        PIN_CONFIG_32.circleSizePt ∧
      (∀ c, 1 ≤ c → c < (calculatePageLayout 20 PIN_CONFIG_32.circleSizePt).cols →
        ¬ heightFitsP 20 c PIN_CONFIG_32.circleSizePt) ∧
      (calculatePageLayout 20 PIN_CONFIG_32.circleSizePt).rows =
        jsCeilDiv 20 (calculatePageLayout 20 PIN_CONFIG_32.circleSizePt).cols) ∧
    ((∀ c, 1 ≤ c → c ≤ maxColsFor PIN_CONFIG_32.circleSizePt →
        ¬ heightFitsP 20 c PIN_CONFIG_32.circleSizePt) →
      (calculatePageLayout 20 PIN_CONFIG_32.circleSizePt).cols = jsCeilSqrt 20 ∧
      (calculatePageLayout 20 PIN_CONFIG_32.circleSizePt).rows =
        jsCeilDiv 20 (jsCeilSqrt 20)) :=
  c2_calculatePageLayout_spec 20 PIN_CONFIG_32.circleSizePt (by decide) circleSizePt_32_pos

lemma jsCeilDiv_le_iff {n cpp : ℕ} (h : 0 < cpp) (p : ℕ) :
    jsCeilDiv n cpp ≤ p ↔ n ≤ p * cpp := by
  rw [← Nat.lt_succ_iff, jsCeilDiv, Nat.div_lt_iff_lt_mul h, Nat.succ_mul]
  omega

lemma jsCeilDiv_succ_pred {n cpp : ℕ} (h : 0 < cpp) (hn : 1 ≤ n) :
    jsCeilDiv n cpp = (n - 1) / cpp + 1 := by
  rw [jsCeilDiv, show n + cpp - 1 = (n - 1) + cpp by omega, Nat.add_div_right _ h]

lemma pagesList_eq (n cpp : ℕ) (hcpp : 0 < cpp) :
    (List.range (jsCeilDiv n cpp)).flatMap
      (fun p => List.replicate (min cpp (n - p * cpp)) p) =
    (List.range n).map (fun k => k / cpp) := by
  induction n using Nat.strong_induction_on with
  | _ n ih =>
    rcases Nat.eq_zero_or_pos n with rfl | hn
    · have : jsCeilDiv 0 cpp = 0 := by
        rw [jsCeilDiv]
        exact Nat.div_eq_of_lt (by omega)
      simp [this]
    rcases le_or_lt n cpp with hle | hgt
    · have hP : jsCeilDiv n cpp = 1 :=
        Nat.div_eq_of_lt_le (by omega) (by omega)
      rw [hP, show List.range 1 = [0] from rfl]
      simp only [List.flatMap_cons, List.flatMap_nil, List.append_nil,
        Nat.zero_mul, Nat.sub_zero, Nat.min_eq_right hle]
      symm
      rw [List.eq_replicate_iff]
      refine ⟨by simp, ?_⟩
      intro b hb
      rcases List.mem_map.mp hb with ⟨k, hk, rfl⟩
      exact Nat.div_eq_of_lt (lt_of_lt_of_le (List.mem_range.mp hk) hle)
    · have hcle : cpp ≤ n := le_of_lt hgt
      have hP : jsCeilDiv n cpp = jsCeilDiv (n - cpp) cpp + 1 := by
        rw [jsCeilDiv, jsCeilDiv, show n + cpp - 1 = (n - cpp + cpp - 1) + cpp by omega,
          Nat.add_div_right _ hcpp]
      rw [hP, List.range_succ_eq_map, List.flatMap_cons, List.flatMap_map]
      have hhead : List.replicate (min cpp (n - 0 * cpp)) 0 = List.replicate cpp 0 := by
        rw [Nat.zero_mul, Nat.sub_zero, Nat.min_eq_left hcle]
      have htail : (List.range (jsCeilDiv (n - cpp) cpp)).flatMap
          (fun a => List.replicate (min cpp (n - (Nat.succ a) * cpp)) (Nat.succ a)) =
          ((List.range (n - cpp)).map (fun k => k / cpp)).map Nat.succ := by
        have hcongr : ∀ a, List.replicate (min cpp (n - (Nat.succ a) * cpp)) (Nat.succ a) =
            (List.replicate (min cpp ((n - cpp) - a * cpp)) a).map Nat.succ := by
          intro a
          rw [List.map_replicate, Nat.succ_mul]
          congr 2
          omega
        calc (List.range (jsCeilDiv (n - cpp) cpp)).flatMap
              (fun a => List.replicate (min cpp (n - (Nat.succ a) * cpp)) (Nat.succ a))
            = (List.range (jsCeilDiv (n - cpp) cpp)).flatMap
              (fun a => (List.replicate (min cpp ((n - cpp) - a * cpp)) a).map Nat.succ) := by
              exact List.flatMap_congr (fun a _ => hcongr a)
          _ = ((List.range (jsCeilDiv (n - cpp) cpp)).flatMap
              (fun a => List.replicate (min cpp ((n - cpp) - a * cpp)) a)).map Nat.succ := by
              rw [List.map_flatMap]
          _ = ((List.range (n - cpp)).map (fun k => k / cpp)).map Nat.succ := by
              rw [ih (n - cpp) (by omega)]
      rw [hhead, htail]
      have hsplit : List.range n = List.range cpp ++ (List.range (n - cpp)).map (cpp + ·) := by
        rw [← List.range_add]
        congr 1
        omega
      rw [hsplit, List.map_append, List.map_map, List.map_map]
      congr 1
      · symm
        rw [List.eq_replicate_iff]
        refine ⟨by simp, ?_⟩
        intro b hb
        rcases List.mem_map.mp hb with ⟨k, hk, rfl⟩
        exact Nat.div_eq_of_lt (List.mem_range.mp hk)
      · apply List.map_congr_left
        intro k _
        simp only [Function.comp_apply]
        rw [Nat.add_comm cpp k, Nat.add_div_right _ hcpp]

lemma pagePositions_map_page (t : ℕ) (cfg : PinConfig) (page : ℕ) :
    (pagePositions t cfg page).map (fun p => p.page) =
      List.replicate (circlesOnPage t cfg.circlesPerPage page) page := by
  rw [pagePositions, List.map_map]
  have h : ((fun p : CirclePosition => p.page) ∘ gridPos t cfg page) = fun _ => page := rfl
  rw [h, List.map_const', List.length_range]

lemma calculateLayout_pages (n : ℕ) (cfg : PinConfig) (hcpp : 0 < cfg.circlesPerPage) :
    (calculateLayout n cfg).map (fun p => p.page) =
      (List.range n).map (fun k => k / cfg.circlesPerPage) := by
  rcases Nat.eq_zero_or_pos n with rfl | hn
  · simp [calculateLayout]
  rw [calculateLayout, if_neg (by omega), List.map_flatMap]
  refine Eq.trans ?_ (pagesList_eq n cfg.circlesPerPage hcpp)
  apply List.flatMap_congr
  intro page _
  rw [pagePositions_map_page]
  rw [circlesOnPage]

lemma calculateLayout_length (n : ℕ) (cfg : PinConfig) (hcpp : 0 < cfg.circlesPerPage) :
    (calculateLayout n cfg).length = n := by
  have h := congrArg List.length (calculateLayout_pages n cfg hcpp)
  simpa using h

lemma calculateLayout_page_get (n : ℕ) (cfg : PinConfig) (hcpp : 0 < cfg.circlesPerPage)
    (k : ℕ) (hk : k < (calculateLayout n cfg).length) :
    ((calculateLayout n cfg).get ⟨k, hk⟩).page = k / cfg.circlesPerPage := by
  have hmap := calculateLayout_pages n cfg hcpp
  have hkn : k < n := by
    have := calculateLayout_length n cfg hcpp
    omega
  have h1 : ((calculateLayout n cfg).map (fun p => p.page))[k]? =
      ((List.range n).map (fun j => j / cfg.circlesPerPage))[k]? := by rw [hmap]
  rw [List.getElem?_map, List.getElem?_map, List.getElem?_eq_getElem hk,
    List.getElem?_eq_getElem (by simpa using hkn)] at h1
  simp only [Option.map_some, Option.some_inj, List.getElem_range] at h1
  simpa using h1

lemma calculateLayout_pages_monotone (n : ℕ) (cfg : PinConfig)
    (hcpp : 0 < cfg.circlesPerPage) :
    List.Pairwise (fun a b : CirclePosition => a.page ≤ b.page) (calculateLayout n cfg) := by
  have h : List.Pairwise (· ≤ ·) ((calculateLayout n cfg).map (fun p => p.page)) := by
    rw [calculateLayout_pages n cfg hcpp, List.pairwise_map]
    exact (List.pairwise_lt_range n).imp (fun hlt => Nat.div_le_div_right (le_of_lt hlt))
  rwa [List.pairwise_map] at h

lemma calculateLayout_count_page (n : ℕ) (cfg : PinConfig)
    (hcpp : 0 < cfg.circlesPerPage) (p : ℕ) :
    ((calculateLayout n cfg).map (fun pos => pos.page)).count p =
      min cfg.circlesPerPage (n - p * cfg.circlesPerPage) := by
  rw [calculateLayout_pages n cfg hcpp, ← pagesList_eq n cfg.circlesPerPage hcpp,
    count_flatMap_replicate]
  by_cases hp : p < jsCeilDiv n cfg.circlesPerPage
  · rw [if_pos hp]
  · rw [if_neg hp]
    have : n ≤ p * cfg.circlesPerPage := (jsCeilDiv_le_iff hcpp p).mp (by omega)
    omega

/-- State step of the assembler's page-change check
(`src/src/core/pdf-generator.ts` lines 477-487): the state is the JS `currentPage`
(an integer, initially `-1`) paired with the number of `doc.addPage` calls so far. -/
def pageCheckStep (st : ℤ × ℕ) (page : ℕ) : ℤ × ℕ :=
  if (page : ℤ) ≠ st.1 then ((page : ℤ), st.2 + 1) else st

/-- Number of pages the assembler loop emits for a list of positions. -/
def assemblerPageCount (positions : List CirclePosition) : ℕ :=
  (positions.foldl (fun st pos => pageCheckStep st pos.page) ((-1 : ℤ), 0)).2

lemma foldl_pageCheckStep_div (cpp : ℕ) (hcpp : 0 < cpp) (n : ℕ) :
    ((List.range n).map (fun k => k / cpp)).foldl pageCheckStep ((-1 : ℤ), 0) =
      if n = 0 then ((-1 : ℤ), 0) else (((n - 1) / cpp : ℕ), jsCeilDiv n cpp) := by
  induction n with
  | zero => simp
  | succ n ih =>
    rw [List.range_succ, List.map_append, List.foldl_append, ih]
    rcases Nat.eq_zero_or_pos n with rfl | hn
    · have h1 : jsCeilDiv 1 cpp = 1 := by
        rw [jsCeilDiv_succ_pred hcpp le_rfl]
        simp [Nat.div_eq_of_lt hcpp]
      simp [pageCheckStep, Nat.div_eq_of_lt hcpp, h1]
    · rw [if_neg (by omega), if_neg (by omega)]
      simp only [List.map_cons, List.map_nil, List.foldl_cons, List.foldl_nil]
      have hle1 : (n - 1) / cpp ≤ n / cpp := Nat.div_le_div_right (by omega)
      have hle2 : n / cpp ≤ (n - 1) / cpp + 1 := by
        have h := Nat.div_le_div_right (c := cpp) (show n ≤ (n - 1) + cpp by omega)
        rwa [Nat.add_div_right _ hcpp] at h
      have hceiln : jsCeilDiv n cpp = (n - 1) / cpp + 1 := jsCeilDiv_succ_pred hcpp hn
      have hceilsn : jsCeilDiv (n + 1) cpp = n / cpp + 1 := by
        rw [jsCeilDiv_succ_pred hcpp (by omega)]
        simp
      rw [pageCheckStep]
      by_cases heq : n / cpp = (n - 1) / cpp
      · rw [if_neg (fun h => h (show ((n / cpp : ℕ) : ℤ) = (((n - 1) / cpp : ℕ) : ℤ) by
          exact_mod_cast heq)), hceiln, hceilsn]
        have h11 : n + 1 - 1 = n := by omega
        rw [h11, heq]
      · rw [if_pos (fun h => heq (Nat.cast_inj.mp h)), hceiln, hceilsn]
        have h12 : n / cpp = (n - 1) / cpp + 1 := by omega
        have h11 : n + 1 - 1 = n := by omega
        rw [h11, h12]

lemma assemblerPageCount_layout (n : ℕ) (cfg : PinConfig)
    (hcpp : 0 < cfg.circlesPerPage) :
    assemblerPageCount (calculateLayout n cfg) = jsCeilDiv n cfg.circlesPerPage := by
  rw [assemblerPageCount, show (fun st (pos : CirclePosition) => pageCheckStep st pos.page) =
    (fun st pos => pageCheckStep st ((fun q : CirclePosition => q.page) pos)) from rfl,
    ← List.foldl_map, calculateLayout_pages n cfg hcpp,
    foldl_pageCheckStep_div cfg.circlesPerPage hcpp n]
  rcases Nat.eq_zero_or_pos n with rfl | hn
  · have h0 : jsCeilDiv 0 cfg.circlesPerPage = 0 := by
      rw [jsCeilDiv]
      exact Nat.div_eq_of_lt (by omega)
    simp [h0]
  · rw [if_neg (by omega)]

/-- C9: for every `totalCircles` and a valid profile (`circlesPerPage > 0`, as in both
shipped profiles), `calculateLayout` returns exactly `totalCircles` positions; the page
index of the `k`-th position is `k / circlesPerPage`, so pages are non-decreasing in
array order, start at `0`, and grow in steps of at most one; page `p` receives exactly
`min(circlesPerPage, totalCircles - p * circlesPerPage)` positions; and the assembler's
page-change check emits exactly `ceil(totalCircles / circlesPerPage)` pages. -/
theorem c9_calculateLayout_paging_spec (n : ℕ) (cfg : PinConfig)
    (hcpp : 0 < cfg.circlesPerPage) :
    (calculateLayout n cfg).length = n ∧
    (∀ k (hk : k < (calculateLayout n cfg).length),
      ((calculateLayout n cfg).get ⟨k, hk⟩).page = k / cfg.circlesPerPage) ∧
    List.Pairwise (fun a b : CirclePosition => a.page ≤ b.page) (calculateLayout n cfg) ∧
    (∀ h0 : 0 < (calculateLayout n cfg).length,
      ((calculateLayout n cfg).get ⟨0, h0⟩).page = 0) ∧
    (∀ k (hk : k + 1 < (calculateLayout n cfg).length),
      ((calculateLayout n cfg).get ⟨k + 1, hk⟩).page ≤
        ((calculateLayout n cfg).get ⟨k, by omega⟩).page + 1) ∧
    (∀ p : ℕ, ((calculateLayout n cfg).map (fun pos => pos.page)).count p =
      min cfg.circlesPerPage (n - p * cfg.circlesPerPage)) ∧
    assemblerPageCount (calculateLayout n cfg) = jsCeilDiv n cfg.circlesPerPage := by
  refine ⟨calculateLayout_length n cfg hcpp, calculateLayout_page_get n cfg hcpp,
    calculateLayout_pages_monotone n cfg hcpp, ?_, ?_,
    calculateLayout_count_page n cfg hcpp, assemblerPageCount_layout n cfg hcpp⟩
  · intro h0
    rw [calculateLayout_page_get n cfg hcpp 0 h0, Nat.zero_div]
  · intro k hk
    rw [calculateLayout_page_get n cfg hcpp (k + 1) hk,
      calculateLayout_page_get n cfg hcpp k (by omega)]
    have h := Nat.div_le_div_right (c := cfg.circlesPerPage)
      (show k + 1 ≤ k + cfg.circlesPerPage by omega)
    rwa [Nat.add_div_right _ hcpp] at h

/-- Witness for C9 at `totalCircles = 25` with the 32mm profile. -/
theorem c9_calculateLayout_paging_spec_witness :
    (calculateLayout 25 PIN_CONFIG_32).length = 25 ∧
    (∀ k (hk : k < (calculateLayout 25 PIN_CONFIG_32).length),
      ((calculateLayout 25 PIN_CONFIG_32).get ⟨k, hk⟩).page =
        k / PIN_CONFIG_32.circlesPerPage) ∧
    List.Pairwise (fun a b : CirclePosition => a.page ≤ b.page)
      (calculateLayout 25 PIN_CONFIG_32) ∧
    (∀ h0 : 0 < (calculateLayout 25 PIN_CONFIG_32).length,
      ((calculateLayout 25 PIN_CONFIG_32).get ⟨0, h0⟩).page = 0) ∧
    (∀ k (hk : k + 1 < (calculateLayout 25 PIN_CONFIG_32).length),
      ((calculateLayout 25 PIN_CONFIG_32).get ⟨k + 1, hk⟩).page ≤
        ((calculateLayout 25 PIN_CONFIG_32).get ⟨k, by omega⟩).page + 1) ∧
    (∀ p : ℕ, ((calculateLayout 25 PIN_CONFIG_32).map (fun pos => pos.page)).count p =
      min PIN_CONFIG_32.circlesPerPage (25 - p * PIN_CONFIG_32.circlesPerPage)) ∧
    assemblerPageCount (calculateLayout 25 PIN_CONFIG_32) =
      jsCeilDiv 25 PIN_CONFIG_32.circlesPerPage :=
  c9_calculateLayout_paging_spec 25 PIN_CONFIG_32 (by decide)

lemma mem_calculateLayout {n : ℕ} {cfg : PinConfig} {pos : CirclePosition}
    (h : pos ∈ calculateLayout n cfg) :
    ∃ page i, i < circlesOnPage n cfg.circlesPerPage page ∧
      pos = gridPos n cfg page i := by
  rw [calculateLayout] at h
  by_cases hn : n = 0
  · rw [if_pos hn] at h
    simp at h
  rw [if_neg hn] at h
  rcases List.mem_flatMap.mp h with ⟨page, _, hpage⟩
  rcases List.mem_map.mp hpage with ⟨i, hi, rfl⟩
  exact ⟨page, i, List.mem_range.mp hi, rfl⟩

lemma one_le_cast_sub_sq {a b : ℕ} (h : a ≠ b) : 1 ≤ ((a : ℚ) - b) ^ 2 := by
  have hz : ((a : ℤ) - b) ≠ 0 := by
    intro h0
    exact h (by omega)
  have habs : 1 ≤ |(a : ℤ) - b| := Int.one_le_abs hz
  have h2 : 1 ≤ ((a : ℤ) - b) ^ 2 := by nlinarith [sq_abs ((a : ℤ) - b)]
  calc (1 : ℚ) ≤ (((a : ℤ) - b : ℤ) : ℚ) ^ 2 := by exact_mod_cast h2
    _ = ((a : ℚ) - b) ^ 2 := by push_cast; ring

lemma dist_sq_ge_of_grid (d s : ℚ) (hd : 0 ≤ d) (hs : 0 ≤ s) (a b r1 r2 : ℕ)
    (hne : a ≠ b ∨ r1 ≠ r2) :
    d ^ 2 ≤ ((a : ℚ) * (d + s) - (b : ℚ) * (d + s)) ^ 2 +
      ((r1 : ℚ) * (d + s) - (r2 : ℚ) * (d + s)) ^ 2 := by
  have hth : d ^ 2 ≤ (d + s) ^ 2 := by nlinarith
  rcases hne with hab | hr
  · have h1 := one_le_cast_sub_sq hab
    have h2 : ((a : ℚ) * (d + s) - b * (d + s)) ^ 2 =
        ((a : ℚ) - b) ^ 2 * (d + s) ^ 2 := by ring
    have h3 : (d + s) ^ 2 ≤ ((a : ℚ) - b) ^ 2 * (d + s) ^ 2 := by
      nlinarith [sq_nonneg (d + s)]
    have h4 := sq_nonneg ((r1 : ℚ) * (d + s) - r2 * (d + s))
    linarith
  · have h1 := one_le_cast_sub_sq hr
    have h2 : ((r1 : ℚ) * (d + s) - r2 * (d + s)) ^ 2 =
        ((r1 : ℚ) - r2) ^ 2 * (d + s) ^ 2 := by ring
    have h3 : (d + s) ^ 2 ≤ ((r1 : ℚ) - r2) ^ 2 * (d + s) ^ 2 := by
      nlinarith [sq_nonneg (d + s)]
    have h4 := sq_nonneg ((a : ℚ) * (d + s) - b * (d + s))
    linarith

lemma calculateLayout_dist_sq (n : ℕ) (cfg : PinConfig)
    (hd : 0 ≤ cfg.circleSizePt) (p q : CirclePosition)
    (hp : p ∈ calculateLayout n cfg) (hq : q ∈ calculateLayout n cfg)
    (hne : p ≠ q) (hpage : p.page = q.page) :
    cfg.circleSizePt ^ 2 ≤ (p.x - q.x) ^ 2 + (p.y - q.y) ^ 2 := by
  have hs : (0 : ℚ) ≤ A4_PAGE.spacing := by
    have : A4_PAGE.spacing = 14.17 := rfl
    rw [this]; norm_num
  rcases mem_calculateLayout hp with ⟨pg1, i, hi, rfl⟩
  rcases mem_calculateLayout hq with ⟨pg2, j, hj, rfl⟩
  have hpg : pg1 = pg2 := hpage
  subst hpg
  set c := (calculatePageLayout (circlesOnPage n cfg.circlesPerPage pg1)
    cfg.circleSizePt).cols with hc
  have hij : i % c ≠ j % c ∨ i / c ≠ j / c := by
    by_contra hcon
    push_neg at hcon
    apply hne
    rw [gridPos, gridPos, hcon.1, hcon.2]
  have hx : (gridPos n cfg pg1 i).x - (gridPos n cfg pg1 j).x =
      ((i % c : ℕ) : ℚ) * (cfg.circleSizePt + A4_PAGE.spacing) -
      ((j % c : ℕ) : ℚ) * (cfg.circleSizePt + A4_PAGE.spacing) := by
    rw [gridPos, gridPos]
    ring
  have hy : (gridPos n cfg pg1 i).y - (gridPos n cfg pg1 j).y =
      ((i / c : ℕ) : ℚ) * (cfg.circleSizePt + A4_PAGE.spacing) -
      ((j / c : ℕ) : ℚ) * (cfg.circleSizePt + A4_PAGE.spacing) := by
    rw [gridPos, gridPos]
    ring
  rw [hx, hy]
  exact dist_sq_ge_of_grid cfg.circleSizePt A4_PAGE.spacing hd hs _ _ _ _ hij

/-- C3: for every `totalCircles` and both pin profiles, two distinct positions of
`calculateLayout` that carry the same page index have centres at Euclidean distance
at least `circleDiameter` — no two circles on one page overlap the cutting circle. -/
theorem c3_no_overlap_on_page (n : ℕ) (cfg : PinConfig)
    (hcfg : cfg = PIN_CONFIG_32 ∨ cfg = PIN_CONFIG_58)
    (p q : CirclePosition) (hp : p ∈ calculateLayout n cfg)
    (hq : q ∈ calculateLayout n cfg) (hne : p ≠ q) (hpage : p.page = q.page) :
    ((cfg.circleSizePt : ℚ) : ℝ) ≤
      Real.sqrt (((p.x - q.x : ℚ) : ℝ) ^ 2 + ((p.y - q.y : ℚ) : ℝ) ^ 2) := by
  have hd : 0 ≤ cfg.circleSizePt := by
    rcases hcfg with rfl | rfl <;> norm_num [PIN_CONFIG_32, PIN_CONFIG_58, mmToPt]
  have hQ := calculateLayout_dist_sq n cfg hd p q hp hq hne hpage
  have hdR : (0 : ℝ) ≤ ((cfg.circleSizePt : ℚ) : ℝ) := by exact_mod_cast hd
  have hsum : (0 : ℝ) ≤ ((p.x - q.x : ℚ) : ℝ) ^ 2 + ((p.y - q.y : ℚ) : ℝ) ^ 2 := by
    positivity
  rw [Real.le_sqrt hdR hsum]
  exact_mod_cast hQ

lemma maxColsFor_32 : maxColsFor PIN_CONFIG_32.circleSizePt = 4 := by
  norm_num [maxColsFor, availableWidth, A4_PAGE, PIN_CONFIG_32, mmToPt, Int.floor_eq_iff]
  decide

lemma calculatePageLayout_two_32 : calculatePageLayout 2 PIN_CONFIG_32.circleSizePt =
    { rows := 2, cols := 1, startX := 236.695025, startY := 291.97005 } := by
  rw [calculatePageLayout, maxColsFor_32]
  norm_num [List.range', List.find?, heightFits, jsCeilDiv, totalHeightUsed, totalWidthUsed,
    availableHeight, A4_PAGE, PIN_CONFIG_32, mmToPt]

/-- First position of the two-circle 32mm layout, used as C3's concrete instance. -/
def c3PosA : CirclePosition := { x := 297.64, y := 352.915025, page := 0 }

/-- Second position of the two-circle 32mm layout, used as C3's concrete instance. -/
def c3PosB : CirclePosition := { x := 297.64, y := 488.974975, page := 0 }

lemma calculateLayout_two_32 : calculateLayout 2 PIN_CONFIG_32 = [c3PosA, c3PosB] := by
  rw [calculateLayout, if_neg (by omega)]
  have h1 : jsCeilDiv 2 PIN_CONFIG_32.circlesPerPage = 1 := by decide
  have h2 : circlesOnPage 2 PIN_CONFIG_32.circlesPerPage 0 = 2 := by decide
  rw [h1, show List.range 1 = [0] from rfl, List.flatMap_cons, List.flatMap_nil,
    List.append_nil, pagePositions, h2, show List.range 2 = [0, 1] from rfl]
  simp only [List.map_cons, List.map_nil, gridPos, h2, calculatePageLayout_two_32]
  norm_num [c3PosA, c3PosB, A4_PAGE, PIN_CONFIG_32, mmToPt]

lemma c3PosA_ne_c3PosB : c3PosA ≠ c3PosB := by
  intro h
  have := congrArg CirclePosition.y h
  norm_num [c3PosA, c3PosB] at this

/-- Witness for C3: the two positions of `calculateLayout 2 PIN_CONFIG_32`. -/
theorem c3_no_overlap_on_page_witness :
    c3PosA ∈ calculateLayout 2 PIN_CONFIG_32 ∧
    c3PosB ∈ calculateLayout 2 PIN_CONFIG_32 ∧
    c3PosA ≠ c3PosB ∧ c3PosA.page = c3PosB.page ∧
    ((PIN_CONFIG_32.circleSizePt : ℚ) : ℝ) ≤
      Real.sqrt (((c3PosA.x - c3PosB.x : ℚ) : ℝ) ^ 2 +
        ((c3PosA.y - c3PosB.y : ℚ) : ℝ) ^ 2) :=
  ⟨by rw [calculateLayout_two_32]; simp,
   by rw [calculateLayout_two_32]; simp,
   c3PosA_ne_c3PosB, rfl,
   c3_no_overlap_on_page 2 PIN_CONFIG_32 (Or.inl rfl) c3PosA c3PosB
     (by rw [calculateLayout_two_32]; simp)
     (by rw [calculateLayout_two_32]; simp)
     c3PosA_ne_c3PosB rfl⟩

/-- One line of pin text (`TextLine` in `src/src/types.ts`). -/
structure TextLine where
  text : String
  size : Option ℚ
deriving DecidableEq

/-- One pin's multi-line text block (`TextPin` in `src/src/types.ts`). -/
abbrev TextPin := List TextLine

/-- Colour argument of a fill call: either a CSS/named colour string as passed to the
drawing API, or an RGB triple (the generators re-encode sampled edge colours as hex or
`rgb(r, g, b)` strings; we keep the triple). -/
inductive ColorV where
  | css (s : String)
  | rgbHex (r g b : ℕ)
  | rgbCss (r g b : ℕ)
deriving DecidableEq

/-- One drawing primitive issued while rendering a slot. `strokeCircleW` is a stroked
circle with an explicit line width (pdf-lib's `drawCircle` with `borderWidth`). -/
inductive DrawOp where
  | fillCircle (x y r : ℚ) (c : ColorV)
  | strokeCircle (x y r : ℚ)
  | strokeCircleW (x y r w : ℚ)
  | imageRect (x y w h : ℚ)
  | textOverlay (lineCount : ℕ)
deriving DecidableEq

/-- Embedding of `drawEmptyCircle` (`src/src/core/pdf-generator.ts` lines 90-152) as the
list of drawing primitives it issues, in order.  `borderWidth` is already in points
(the call site converts `mm * 2.83465`). -/
def drawEmptyCircleOps (x y pinDiameter circleDiameter : ℚ)
    (backgroundColor borderColor : String) (borderWidth : ℚ) (textPin : TextPin) :
    List DrawOp :=
  (if backgroundColor ≠ "" then
    [DrawOp.fillCircle x y (circleDiameter / 2) (ColorV.css backgroundColor)] else []) ++
  (if borderColor ≠ "" ∧ 0 < borderWidth then
    [DrawOp.fillCircle x y (circleDiameter / 2) (ColorV.css borderColor),
     DrawOp.fillCircle x y ((pinDiameter - borderWidth * 2) / 2)
       (if backgroundColor ≠ "" then ColorV.css backgroundColor else ColorV.css "white")]
   else []) ++
  [DrawOp.strokeCircle x y (circleDiameter / 2)] ++
  (if 0 < textPin.length then [DrawOp.textOverlay textPin.length] else [])

/-- Embedding of `drawCircularImage` (`src/src/core/pdf-generator.ts` lines 252-330)
as the list of drawing primitives it issues, in order. -/
def drawCircularImageOps (x y pinDiameter circleDiameter : ℚ)
    (edgeColor : Option (ℕ × ℕ × ℕ)) (backgroundColor borderColor : String)
    (borderWidth : ℚ) (textPin : TextPin) : List DrawOp :=
  (if backgroundColor ≠ "" then
    [DrawOp.fillCircle x y (circleDiameter / 2) (ColorV.css backgroundColor)]
   else match edgeColor with
    | some (r, g, b) => [DrawOp.fillCircle x y (circleDiameter / 2) (ColorV.rgbHex r g b)]
    | none => []) ++
  (if borderColor ≠ "" ∧ 0 < borderWidth then
    [DrawOp.fillCircle x y (circleDiameter / 2) (ColorV.css borderColor),
     DrawOp.fillCircle x y ((pinDiameter - borderWidth * 2) / 2)
       (if backgroundColor ≠ "" then ColorV.css backgroundColor
        else match edgeColor with
         | some (r, g, b) => ColorV.rgbHex r g b
         | none => ColorV.css "white")]
   else []) ++
  [DrawOp.imageRect (x - pinDiameter / 2) (y - pinDiameter / 2) pinDiameter pinDiameter] ++
  [DrawOp.strokeCircle x y (circleDiameter / 2)] ++
  (if 0 < textPin.length then [DrawOp.textOverlay textPin.length] else [])

/-- Embedding of the canvas preview renderer `renderPinToCanvas`
(`src/unnamed/part_005` lines 204-264) as its list of drawing primitives. -/
def renderPinToCanvasOps (x y : ℚ) (cfg : PinConfig) (backgroundColor : String)
    (fillWithEdgeColor : Bool) (edgeColor : Option (ℕ × ℕ × ℕ))
    (borderColor : String) (borderWidthMm : ℚ) (textLines : ℕ) : List DrawOp :=
  let fillColor : Option ColorV :=
    if backgroundColor ≠ "" then some (ColorV.css backgroundColor)
    else if fillWithEdgeColor then
      match edgeColor with
      | some (r, g, b) => some (ColorV.rgbCss r g b)
      | none => none
    else none
  (if borderColor ≠ "" ∧ 0 < borderWidthMm then
    [DrawOp.fillCircle x y (cfg.circleSizePt / 2) (ColorV.css borderColor),
     DrawOp.fillCircle x y (cfg.circleSizePt / 2 - borderWidthMm * mmToPt)
       (fillColor.getD (ColorV.css "white"))]
   else match fillColor with
    | some c => [DrawOp.fillCircle x y (cfg.circleSizePt / 2) c]
    | none => []) ++
  [DrawOp.imageRect (x - cfg.pinSizePt / 2) (y - cfg.pinSizePt / 2)
    cfg.pinSizePt cfg.pinSizePt] ++
  [DrawOp.strokeCircleW x y (cfg.circleSizePt / 2) 1] ++
  (if 0 < textLines then [DrawOp.textOverlay textLines] else [])

/-- Embedding of one slot of the web PDF generator `generatePDF`
(`src/web/src/lib/pdf-generator.js` lines 88-181): background, embedded image, border
ring as a stroked circle at the ring's mid-radius, cutting outline, optional pin guide
and text.  The y coordinate is flipped to pdf-lib's bottom-up page space. -/
def webSlotOps (x y : ℚ) (cfg : PinConfig) (backgroundColor : String)
    (fillWithEdgeColor : Bool) (edgeColor : Option (ℕ × ℕ × ℕ))
    (borderColor : String) (borderWidthMm : ℚ) (showPinGuide : Bool)
    (textLines : ℕ) : List DrawOp :=
  let yFlip := A4_PAGE.pageHeight - y
  let bgColor : Option ColorV :=
    if backgroundColor ≠ "" ∧ backgroundColor.trim ≠ "" then some (ColorV.css backgroundColor)
    else if fillWithEdgeColor then
      match edgeColor with
      | some (r, g, b) => some (ColorV.rgbCss r g b)
      | none => none
    else none
  (match bgColor with
   | some c => [DrawOp.fillCircle x yFlip (cfg.circleSizePt / 2) c]
   | none => []) ++
  [DrawOp.imageRect (x - cfg.pinSizePt / 2) (yFlip - cfg.pinSizePt / 2)
    cfg.pinSizePt cfg.pinSizePt] ++
  (if borderColor ≠ "" ∧ 0 < borderWidthMm then
    [DrawOp.strokeCircleW x yFlip
      ((cfg.circleSizePt - (cfg.circleSizePt - cfg.pinSizePt + borderWidthMm * mmToPt)) / 2 +
        (cfg.circleSizePt / 2 -
          (cfg.circleSizePt - (cfg.circleSizePt - cfg.pinSizePt + borderWidthMm * mmToPt)) / 2) / 2)
      (cfg.circleSizePt / 2 -
        (cfg.circleSizePt - (cfg.circleSizePt - cfg.pinSizePt + borderWidthMm * mmToPt)) / 2)]
   else []) ++
  [DrawOp.strokeCircleW x yFlip (cfg.circleSizePt / 2) 1] ++
  (if showPinGuide then [DrawOp.strokeCircleW x yFlip (cfg.pinSizePt / 2) (1/2)] else []) ++
  (if 0 < textLines then [DrawOp.textOverlay textLines] else [])

/-- Refutation of C5 as stated: in the cited `drawCircularImage` the border ring's
inner cut-out radius is `(pinDiameter - 2w)/2`, not `circleDiameter/2 - w`; at the
32mm profile with a 1mm border the two differ. -/
theorem c5_border_ring_counterexample :
    drawCircularImageOps 0 0 PIN_CONFIG_32.pinSizePt PIN_CONFIG_32.circleSizePt none ""
        "red" (1 * mmToPt) [] =
      [DrawOp.fillCircle 0 0 (PIN_CONFIG_32.circleSizePt / 2) (ColorV.css "red"),
       DrawOp.fillCircle 0 0 ((PIN_CONFIG_32.pinSizePt - 1 * mmToPt * 2) / 2)
         (ColorV.css "white"),
       DrawOp.imageRect (0 - PIN_CONFIG_32.pinSizePt / 2) (0 - PIN_CONFIG_32.pinSizePt / 2)
         PIN_CONFIG_32.pinSizePt PIN_CONFIG_32.pinSizePt,
       DrawOp.strokeCircle 0 0 (PIN_CONFIG_32.circleSizePt / 2)] ∧
    (PIN_CONFIG_32.pinSizePt - 1 * mmToPt * 2) / 2 ≠
      PIN_CONFIG_32.circleSizePt / 2 - 1 * mmToPt := by
  constructor
  · unfold drawCircularImageOps
    rw [if_neg (by decide : ¬(("" : String) ≠ "")),
      if_pos (⟨by decide, by norm_num [mmToPt]⟩ : ("red" : String) ≠ "" ∧ 0 < 1 * mmToPt)]
    rfl
  · norm_num [PIN_CONFIG_32, mmToPt]

lemma mmToPt_pos : (0 : ℚ) < mmToPt := by norm_num [mmToPt]

lemma c5_core_image_ring (x y pinD circleD wpt : ℚ) (hw : 0 < wpt)
    (bg bc : String) (hbc : bc ≠ "") (edge : Option (ℕ × ℕ × ℕ)) (tp : TextPin) :
    DrawOp.fillCircle x y (circleD / 2) (ColorV.css bc) ∈
      drawCircularImageOps x y pinD circleD edge bg bc wpt tp ∧
    ∃ c, DrawOp.fillCircle x y ((pinD - wpt * 2) / 2) c ∈
      drawCircularImageOps x y pinD circleD edge bg bc wpt tp := by
  unfold drawCircularImageOps
  rw [if_pos (⟨hbc, hw⟩ : bc ≠ "" ∧ 0 < wpt)]
  refine ⟨by simp [List.mem_append], ?_⟩
  refine ⟨(if bg ≠ "" then ColorV.css bg
    else match edge with
      | some (r, g, b) => ColorV.rgbHex r g b
      | none => ColorV.css "white"), ?_⟩
  simp [List.mem_append]

lemma c5_core_empty_ring (x y pinD circleD wpt : ℚ) (hw : 0 < wpt)
    (bg bc : String) (hbc : bc ≠ "") (tp : TextPin) :
    DrawOp.fillCircle x y (circleD / 2) (ColorV.css bc) ∈
      drawEmptyCircleOps x y pinD circleD bg bc wpt tp ∧
    ∃ c, DrawOp.fillCircle x y ((pinD - wpt * 2) / 2) c ∈
      drawEmptyCircleOps x y pinD circleD bg bc wpt tp := by
  unfold drawEmptyCircleOps
  rw [if_pos (⟨hbc, hw⟩ : bc ≠ "" ∧ 0 < wpt)]
  refine ⟨by simp [List.mem_append], ?_⟩
  refine ⟨(if bg ≠ "" then ColorV.css bg else ColorV.css "white"), ?_⟩
  simp [List.mem_append]

lemma c5_canvas_ring (x y : ℚ) (cfg : PinConfig) (bg : String) (fwec : Bool)
    (edge : Option (ℕ × ℕ × ℕ)) (bc : String) (hbc : bc ≠ "") (wMm : ℚ) (hw : 0 < wMm)
    (tl : ℕ) :
    DrawOp.fillCircle x y (cfg.circleSizePt / 2) (ColorV.css bc) ∈
      renderPinToCanvasOps x y cfg bg fwec edge bc wMm tl ∧
    ∃ c, DrawOp.fillCircle x y (cfg.circleSizePt / 2 - wMm * mmToPt) c ∈
      renderPinToCanvasOps x y cfg bg fwec edge bc wMm tl := by
  simp only [renderPinToCanvasOps]
  rw [if_pos (⟨hbc, hw⟩ : bc ≠ "" ∧ 0 < wMm)]
  refine ⟨by simp [List.mem_append], ?_⟩
  refine ⟨(if bg ≠ "" then some (ColorV.css bg)
    else if fwec = true then
      match edge with
      | some (r, g, b) => some (ColorV.rgbCss r g b)
      | none => none
    else none).getD (ColorV.css "white"), ?_⟩
  simp [List.mem_append]

lemma c5_web_ring (x y : ℚ) (cfg : PinConfig) (bg : String) (fwec : Bool)
    (edge : Option (ℕ × ℕ × ℕ)) (bc : String) (hbc : bc ≠ "") (wMm : ℚ) (hw : 0 < wMm)
    (guide : Bool) (tl : ℕ) :
    ∃ r w, DrawOp.strokeCircleW x (A4_PAGE.pageHeight - y) r w ∈
        webSlotOps x y cfg bg fwec edge bc wMm guide tl ∧
      r + w / 2 = cfg.circleSizePt / 2 ∧
      r - w / 2 = (cfg.pinSizePt - wMm * mmToPt) / 2 := by
  simp only [webSlotOps]
  rw [if_pos (⟨hbc, hw⟩ : bc ≠ "" ∧ 0 < wMm)]
  refine ⟨(cfg.circleSizePt - (cfg.circleSizePt - cfg.pinSizePt + wMm * mmToPt)) / 2 +
      (cfg.circleSizePt / 2 -
        (cfg.circleSizePt - (cfg.circleSizePt - cfg.pinSizePt + wMm * mmToPt)) / 2) / 2,
    cfg.circleSizePt / 2 -
      (cfg.circleSizePt - (cfg.circleSizePt - cfg.pinSizePt + wMm * mmToPt)) / 2,
    by simp [List.mem_append], by ring, by ring⟩

/-- C5 amended: whenever a non-empty `borderColor` and a border width `w > 0` (in mm)
are set, every renderer draws the ring's outer edge at the cutting-circle radius
`circleDiameter/2`; but the inner edge is `circleDiameter/2 - w·(pt/mm)` only in the
canvas preview renderer (`renderPinToCanvas` of part_005); the PDFKit generators
(`drawCircularImage` / `drawEmptyCircle`) cut the ring off at `pinDiameter/2 - w·(pt/mm)`
and the web PDF generator's stroked ring spans `[(pinDiameter - w·(pt/mm))/2,
circleDiameter/2]`. -/
theorem c5_border_ring_amended (x y pinD circleD wMm : ℚ) (hw : 0 < wMm)
    (bg bc : String) (hbc : bc ≠ "") (edge : Option (ℕ × ℕ × ℕ)) (tp : TextPin)
    (cfg : PinConfig) (fwec guide : Bool) (tl : ℕ) :
    (DrawOp.fillCircle x y (circleD / 2) (ColorV.css bc) ∈
        drawCircularImageOps x y pinD circleD edge bg bc (wMm * mmToPt) tp ∧
      ∃ c, DrawOp.fillCircle x y (pinD / 2 - wMm * mmToPt) c ∈
        drawCircularImageOps x y pinD circleD edge bg bc (wMm * mmToPt) tp) ∧
    (DrawOp.fillCircle x y (circleD / 2) (ColorV.css bc) ∈
        drawEmptyCircleOps x y pinD circleD bg bc (wMm * mmToPt) tp ∧
      ∃ c, DrawOp.fillCircle x y (pinD / 2 - wMm * mmToPt) c ∈
        drawEmptyCircleOps x y pinD circleD bg bc (wMm * mmToPt) tp) ∧
    (DrawOp.fillCircle x y (cfg.circleSizePt / 2) (ColorV.css bc) ∈
        renderPinToCanvasOps x y cfg bg fwec edge bc wMm tl ∧
      ∃ c, DrawOp.fillCircle x y (cfg.circleSizePt / 2 - wMm * mmToPt) c ∈
        renderPinToCanvasOps x y cfg bg fwec edge bc wMm tl) ∧
    (∃ r w, DrawOp.strokeCircleW x (A4_PAGE.pageHeight - y) r w ∈
        webSlotOps x y cfg bg fwec edge bc wMm guide tl ∧
      r + w / 2 = cfg.circleSizePt / 2 ∧
      r - w / 2 = (cfg.pinSizePt - wMm * mmToPt) / 2) := by
  have hwpt : 0 < wMm * mmToPt := mul_pos hw mmToPt_pos
  have hr : pinD / 2 - wMm * mmToPt = (pinD - wMm * mmToPt * 2) / 2 := by ring
  refine ⟨?_, ?_, c5_canvas_ring x y cfg bg fwec edge bc hbc wMm hw tl,
    c5_web_ring x y cfg bg fwec edge bc hbc wMm hw guide tl⟩
  · rw [hr]
    exact c5_core_image_ring x y pinD circleD (wMm * mmToPt) hwpt bg bc hbc edge tp
  · rw [hr]
    exact c5_core_empty_ring x y pinD circleD (wMm * mmToPt) hwpt bg bc hbc tp

/-- Witness for the amended C5 at the 32mm profile with a 1mm red border. -/
theorem c5_border_ring_amended_witness :
    (DrawOp.fillCircle 0 0 (PIN_CONFIG_32.circleSizePt / 2) (ColorV.css "red") ∈
        drawCircularImageOps 0 0 PIN_CONFIG_32.pinSizePt PIN_CONFIG_32.circleSizePt
          none "" "red" (1 * mmToPt) [] ∧
      ∃ c, DrawOp.fillCircle 0 0 (PIN_CONFIG_32.pinSizePt / 2 - 1 * mmToPt) c ∈
        drawCircularImageOps 0 0 PIN_CONFIG_32.pinSizePt PIN_CONFIG_32.circleSizePt
          none "" "red" (1 * mmToPt) []) ∧
    (DrawOp.fillCircle 0 0 (PIN_CONFIG_32.circleSizePt / 2) (ColorV.css "red") ∈
        drawEmptyCircleOps 0 0 PIN_CONFIG_32.pinSizePt PIN_CONFIG_32.circleSizePt
          "" "red" (1 * mmToPt) [] ∧
      ∃ c, DrawOp.fillCircle 0 0 (PIN_CONFIG_32.pinSizePt / 2 - 1 * mmToPt) c ∈
        drawEmptyCircleOps 0 0 PIN_CONFIG_32.pinSizePt PIN_CONFIG_32.circleSizePt
          "" "red" (1 * mmToPt) []) ∧
    (DrawOp.fillCircle 0 0 (PIN_CONFIG_32.circleSizePt / 2) (ColorV.css "red") ∈
        renderPinToCanvasOps 0 0 PIN_CONFIG_32 "" false none "red" 1 0 ∧
      ∃ c, DrawOp.fillCircle 0 0 (PIN_CONFIG_32.circleSizePt / 2 - 1 * mmToPt) c ∈
        renderPinToCanvasOps 0 0 PIN_CONFIG_32 "" false none "red" 1 0) ∧
    (∃ r w, DrawOp.strokeCircleW 0 (A4_PAGE.pageHeight - 0) r w ∈
        webSlotOps 0 0 PIN_CONFIG_32 "" false none "red" 1 false 0 ∧
      r + w / 2 = PIN_CONFIG_32.circleSizePt / 2 ∧
      r - w / 2 = (PIN_CONFIG_32.pinSizePt - 1 * mmToPt) / 2) :=
  c5_border_ring_amended 0 0 PIN_CONFIG_32.pinSizePt PIN_CONFIG_32.circleSizePt 1
    one_pos "" "red" (by decide) none [] PIN_CONFIG_32 false false 0

/-- Variant of `drawEmptyCircle` in the legacy generator (`src/src/pdf-generator.ts`
lines 90-152), whose text argument is a single string drawn as one line when
non-empty. -/
def drawEmptyCircleLegacyOps (x y pinDiameter circleDiameter : ℚ)
    (backgroundColor borderColor : String) (borderWidth : ℚ) (text : String) :
    List DrawOp :=
  (if backgroundColor ≠ "" then
    [DrawOp.fillCircle x y (circleDiameter / 2) (ColorV.css backgroundColor)] else []) ++
  (if borderColor ≠ "" ∧ 0 < borderWidth then
    [DrawOp.fillCircle x y (circleDiameter / 2) (ColorV.css borderColor),
     DrawOp.fillCircle x y ((pinDiameter - borderWidth * 2) / 2)
       (if backgroundColor ≠ "" then ColorV.css backgroundColor else ColorV.css "white")]
   else []) ++
  [DrawOp.strokeCircle x y (circleDiameter / 2)] ++
  (if text ≠ "" then [DrawOp.textOverlay 1] else [])

/-- One event of a generator run: opening the output stream (`doc.pipe(stream)`),
adding a page, or drawing one slot's primitives. -/
inductive SlotEv where
  | openStream
  | addPage
  | draw (ops : List DrawOp)
deriving DecidableEq

/-- Number of slots drawn in a trace. -/
def drawCount (tr : List SlotEv) : ℕ :=
  tr.countP (fun e => match e with | SlotEv.draw _ => true | _ => false)

/-- Number of `doc.addPage` calls in a trace. -/
def addPageCount (tr : List SlotEv) : ℕ :=
  tr.countP (fun e => match e with | SlotEv.addPage => true | _ => false)

/-- Placeholder for the out-of-range array read `positions[i]` (never reached:
the loops run for exactly `positions.length` iterations). -/
def defaultPos : CirclePosition := { x := 0, y := 0, page := 0 }

/-- One iteration of the generators' render loop: add a page when the position's page
index differs from `currentPage` (initially `-1`), then draw the slot. -/
def slotStep (positions : List CirclePosition) (opsFor : ℕ → CirclePosition → List DrawOp)
    (st : ℤ × List SlotEv) (i : ℕ) : ℤ × List SlotEv :=
  let pos := positions.getD i defaultPos
  let st2 := if (pos.page : ℤ) ≠ st.1 then ((pos.page : ℤ), st.2 ++ [SlotEv.addPage]) else st
  (st2.1, st2.2 ++ [SlotEv.draw (opsFor i pos)])

/-- The render loop shared by the generators (`for circleIdx in 0..totalCircles-1`
with the page-change check), as the list of events it emits. -/
def assembleSlots (totalCircles : ℕ) (positions : List CirclePosition)
    (opsFor : ℕ → CirclePosition → List DrawOp) : List SlotEv :=
  ((List.range totalCircles).foldl (slotStep positions opsFor) ((-1 : ℤ), [])).2

/-- Slot count of the no-images branch of the core generator
(`src/src/core/pdf-generator.ts` lines 378-383). -/
def coreTemplateTotal (textLen cpp : ℕ) (duplicate : Bool) : ℕ :=
  if 0 < textLen ∧ duplicate = true then max textLen cpp
  else if 0 < textLen then textLen
  else cpp

/-- Event trace of the no-images branch of the core generator
(`src/src/core/pdf-generator.ts` lines 376-437). -/
def coreTemplateTrace (textPins : List TextPin) (cfg : PinConfig) (duplicate : Bool)
    (backgroundColor borderColor : String) (borderWidthMm : ℚ) : List SlotEv :=
  let totalCircles := coreTemplateTotal textPins.length cfg.circlesPerPage duplicate
  let textDistribution :=
    if duplicate = true ∧ 0 < textPins.length then
      createImageDistribution textPins.length totalCircles
    else List.range totalCircles
  SlotEv.openStream ::
    assembleSlots totalCircles (calculateLayout totalCircles cfg) (fun i pos =>
      drawEmptyCircleOps pos.x pos.y cfg.pinSizePt cfg.circleSizePt backgroundColor
        borderColor (borderWidthMm * mmToPt)
        (textPins.getD (textDistribution.getD i 0) []))

/-- Slot count of the no-images branch of the legacy generator
(`src/src/pdf-generator.ts` line 360), independent of the duplicate flag. -/
def legacyTemplateTotal (textsLen cpp : ℕ) : ℕ :=
  if 0 < textsLen then max textsLen cpp else cpp

/-- Event trace of the no-images branch of the legacy generator
(`src/src/pdf-generator.ts` lines 356-401): exactly one `addPage`, then a plain loop
over all positions with no page-change check. -/
def legacyTemplateTrace (texts : List String) (cfg : PinConfig)
    (backgroundColor borderColor : String) (borderWidthMm : ℚ) : List SlotEv :=
  let totalCircles := legacyTemplateTotal texts.length cfg.circlesPerPage
  SlotEv.openStream :: SlotEv.addPage ::
    (List.range totalCircles).map (fun i =>
      SlotEv.draw (drawEmptyCircleLegacyOps
        ((calculateLayout totalCircles cfg).getD i defaultPos).x
        ((calculateLayout totalCircles cfg).getD i defaultPos).y
        cfg.pinSizePt cfg.circleSizePt backgroundColor borderColor
        (borderWidthMm * mmToPt) (texts.getD i "")))

/-- Input image as the generator sees it: whether the file is readable, and its
dimensions; `edge` abstracts the raster content that edge-colour sampling reads. -/
structure ImageInput where
  readable : Bool
  width : ℕ
  height : ℕ
  edge : ℕ × ℕ × ℕ
deriving DecidableEq

/-- Embedding of `processImage` (`src/src/core/pdf-generator.ts` lines 64-85) at the
resource level: an unreadable or zero-dimension image raises; otherwise the prepared
foreground plus the sampled edge colour when `fill` is set. -/
def processImageE (fill : Bool) (img : ImageInput) :
    Except String (ImageInput × Option (ℕ × ℕ × ℕ)) :=
  if img.readable = true ∧ 0 < img.width ∧ 0 < img.height then
    Except.ok (img, if fill then some img.edge else none)
  else Except.error "image processing failed"

/-- The sequential processing loop (`src/src/core/pdf-generator.ts` lines 466-471):
each image is awaited in turn and the first failure aborts the whole generation. -/
def processAll (fill : Bool) : List ImageInput →
    Except String (List (ImageInput × Option (ℕ × ℕ × ℕ)))
  | [] => Except.ok []
  | img :: rest =>
    match processImageE fill img with
    | Except.error e => Except.error e
    | Except.ok p =>
      match processAll fill rest with
      | Except.error e => Except.error e
      | Except.ok ps => Except.ok (p :: ps)

/-- Event trace and outcome of the images branch of the core generator
(`src/src/core/pdf-generator.ts` lines 439-516): all images are processed before the
document and write stream are created, so a processing failure yields an error with
no output events at all. -/
def generateImagesTrace (images : List ImageInput) (cfg : PinConfig)
    (fill duplicate : Bool) (backgroundColor borderColor : String) (borderWidthMm : ℚ)
    (textPins : List TextPin) : List SlotEv × Option String :=
  let totalCircles := if duplicate = true then max images.length cfg.circlesPerPage
    else images.length
  let positions := calculateLayout totalCircles cfg
  let imageDistribution := if duplicate = true then
      createImageDistribution images.length totalCircles
    else List.range images.length
  let textDistribution := if 0 < textPins.length then
      createImageDistribution textPins.length totalCircles
    else List.range totalCircles
  match processAll fill images with
  | Except.error e => ([], some e)
  | Except.ok processed =>
    (SlotEv.openStream ::
      assembleSlots totalCircles positions (fun i pos =>
        drawCircularImageOps pos.x pos.y cfg.pinSizePt cfg.circleSizePt
          (if fill = true then
            (processed.getD (imageDistribution.getD i 0)
              ({ readable := false, width := 0, height := 0, edge := (0, 0, 0) }, none)).2
           else none)
          backgroundColor borderColor (borderWidthMm * mmToPt)
          (textPins.getD (textDistribution.getD i 0) [])), none)

lemma drawCount_cons_openStream (l : List SlotEv) :
    drawCount (SlotEv.openStream :: l) = drawCount l := by
  simp [drawCount]

lemma foldl_slotStep_drawCount (ps : List CirclePosition)
    (f : ℕ → CirclePosition → List DrawOp) (l : List ℕ) (st : ℤ × List SlotEv) :
    drawCount ((l.foldl (slotStep ps f) st).2) = drawCount st.2 + l.length := by
  induction l generalizing st with
  | nil => simp
  | cons a l ih =>
    rw [List.foldl_cons, ih]
    simp only [slotStep]
    split_ifs with h <;> simp [drawCount, List.countP_append] <;> omega

lemma drawCount_assembleSlots (t : ℕ) (ps : List CirclePosition)
    (f : ℕ → CirclePosition → List DrawOp) : drawCount (assembleSlots t ps f) = t := by
  rw [assembleSlots, foldl_slotStep_drawCount]
  simp [drawCount]

lemma foldl_slotStep_mem {ps : List CirclePosition} {f : ℕ → CirclePosition → List DrawOp}
    {l : List ℕ} {st : ℤ × List SlotEv} {ev : SlotEv}
    (h : ev ∈ (l.foldl (slotStep ps f) st).2) :
    ev ∈ st.2 ∨ ev = SlotEv.addPage ∨
      ∃ i ∈ l, ev = SlotEv.draw (f i (ps.getD i defaultPos)) := by
  induction l generalizing st with
  | nil => exact Or.inl h
  | cons a l ih =>
    rw [List.foldl_cons] at h
    rcases ih h with h1 | h2 | ⟨i, hi, hdraw⟩
    · simp only [slotStep] at h1
      split_ifs at h1 <;> simp only [List.mem_append, List.mem_singleton] at h1
      · rcases h1 with (hin | hap) | hdr
        · exact Or.inl hin
        · exact Or.inr (Or.inl hap)
        · exact Or.inr (Or.inr ⟨a, List.mem_cons_self a l, hdr⟩)
      · rcases h1 with hin | hdr
        · exact Or.inl hin
        · exact Or.inr (Or.inr ⟨a, List.mem_cons_self a l, hdr⟩)
    · exact Or.inr (Or.inl h2)
    · exact Or.inr (Or.inr ⟨i, List.mem_cons_of_mem a hi, hdraw⟩)

lemma imageRect_not_mem_emptyOps (x y p c : ℚ) (bg bc : String) (w : ℚ) (tp : TextPin)
    (a b u v : ℚ) : DrawOp.imageRect a b u v ∉ drawEmptyCircleOps x y p c bg bc w tp := by
  intro h
  unfold drawEmptyCircleOps at h
  split_ifs at h <;> simp at h

lemma imageRect_not_mem_legacyOps (x y p c : ℚ) (bg bc : String) (w : ℚ) (t : String)
    (a b u v : ℚ) : DrawOp.imageRect a b u v ∉ drawEmptyCircleLegacyOps x y p c bg bc w t := by
  intro h
  unfold drawEmptyCircleLegacyOps at h
  split_ifs at h <;> simp at h

lemma coreTemplateTrace_drawCount (textPins : List TextPin) (cfg : PinConfig)
    (duplicate : Bool) (bg bc : String) (bw : ℚ) :
    drawCount (coreTemplateTrace textPins cfg duplicate bg bc bw) =
      coreTemplateTotal textPins.length cfg.circlesPerPage duplicate := by
  simp only [coreTemplateTrace]
  rw [drawCount_cons_openStream, drawCount_assembleSlots]

lemma coreTemplateTrace_no_image (textPins : List TextPin) (cfg : PinConfig)
    (duplicate : Bool) (bg bc : String) (bw : ℚ) :
    ∀ ops, SlotEv.draw ops ∈ coreTemplateTrace textPins cfg duplicate bg bc bw →
      ∀ a b u v, DrawOp.imageRect a b u v ∉ ops := by
  intro ops hops a b u v
  simp only [coreTemplateTrace] at hops
  rcases List.mem_cons.mp hops with heq | hmem
  · exact absurd heq (by simp)
  rw [assembleSlots] at hmem
  rcases foldl_slotStep_mem hmem with h0 | h1 | ⟨i, _, hdraw⟩
  · simp at h0
  · exact absurd h1 (by simp)
  · have hops2 := SlotEv.draw.inj hdraw
    rw [hops2]
    exact imageRect_not_mem_emptyOps _ _ _ _ _ _ _ _ a b u v

lemma countP_map_const_true {α β : Type} (p : β → Bool) (g : α → β) (l : List α)
    (h : ∀ a, p (g a) = true) : (l.map g).countP p = l.length := by
  induction l with
  | nil => rfl
  | cons a l ih => simp [List.countP_cons, h, ih]

lemma legacyTemplateTrace_addPageCount (texts : List String) (cfg : PinConfig)
    (bg bc : String) (bw : ℚ) :
    addPageCount (legacyTemplateTrace texts cfg bg bc bw) = 1 := by
  simp only [legacyTemplateTrace]
  simp [addPageCount, List.countP_cons, List.countP_map, Function.comp]

lemma legacyTemplateTrace_drawCount (texts : List String) (cfg : PinConfig)
    (bg bc : String) (bw : ℚ) :
    drawCount (legacyTemplateTrace texts cfg bg bc bw) =
      legacyTemplateTotal texts.length cfg.circlesPerPage := by
  simp only [legacyTemplateTrace, drawCount, List.countP_cons]
  rw [countP_map_const_true _ _ _ (fun a => rfl), List.length_range]
  simp

lemma legacyTemplateTrace_no_image (texts : List String) (cfg : PinConfig)
    (bg bc : String) (bw : ℚ) :
    ∀ ops, SlotEv.draw ops ∈ legacyTemplateTrace texts cfg bg bc bw →
      ∀ a b u v, DrawOp.imageRect a b u v ∉ ops := by
  intro ops hops a b u v
  simp only [legacyTemplateTrace] at hops
  rcases List.mem_cons.mp hops with heq | hmem
  · exact absurd heq (by simp)
  rcases List.mem_cons.mp hmem with heq | hmem2
  · exact absurd heq (by simp)
  rcases List.mem_map.mp hmem2 with ⟨i, _, hdraw⟩
  have hops2 := (SlotEv.draw.inj hdraw.symm).symm
  rw [← hops2]
  exact imageRect_not_mem_legacyOps _ _ _ _ _ _ _ _ a b u v

/-- Three one-line text blocks, C4's concrete counterexample input. -/
def c4CexPins : List TextPin :=
  [[{ text := "A", size := none }], [{ text := "B", size := none }],
   [{ text := "C", size := none }]]

/-- A single one-line text block, used by C4's witness. -/
def c4OnePin : List TextPin := [[{ text := "A", size := none }]]

/-- Refutation of C4 as stated: with 3 text blocks, `duplicate = false` and the 32mm
profile (20 circles per page), the core generator's no-images branch lays out and
renders 3 slots, not `circlesPerPage` as the claim requires when the text count is not
larger than `circlesPerPage`. -/
theorem c4_template_slot_count_counterexample :
    drawCount (coreTemplateTrace c4CexPins PIN_CONFIG_32 false "" "" 0) = 3 ∧
    drawCount (coreTemplateTrace c4CexPins PIN_CONFIG_32 false "" "" 0) ≠
      PIN_CONFIG_32.circlesPerPage := by
  have h := coreTemplateTrace_drawCount c4CexPins PIN_CONFIG_32 false "" "" 0
  have h3 : coreTemplateTotal c4CexPins.length PIN_CONFIG_32.circlesPerPage false = 3 := by
    decide
  rw [h3] at h
  exact ⟨h, by rw [h]; decide⟩

/-- C4 amended: with no images, the core generator renders
`circlesPerPage` slots when there are no text blocks, `textBlocks.length` slots when
text blocks are present and `duplicate` is off (even when that is smaller than
`circlesPerPage`), and `max(textBlocks.length, circlesPerPage)` slots when duplicating;
the legacy generator renders `max(textBlocks.length, circlesPerPage)` whenever text is
present regardless of the flag, and `circlesPerPage` otherwise; and in both, every
rendered circle draws no image. -/
theorem c4_template_slot_count_amended (textPins : List TextPin) (texts : List String)
    (cfg : PinConfig) (duplicate : Bool) (bg bc : String) (bw : ℚ) :
    drawCount (coreTemplateTrace textPins cfg duplicate bg bc bw) =
      coreTemplateTotal textPins.length cfg.circlesPerPage duplicate ∧
    (textPins = [] →
      coreTemplateTotal textPins.length cfg.circlesPerPage duplicate =
        cfg.circlesPerPage) ∧
    (textPins ≠ [] → duplicate = true →
      coreTemplateTotal textPins.length cfg.circlesPerPage duplicate =
        max textPins.length cfg.circlesPerPage) ∧
    (textPins ≠ [] → duplicate = false →
      coreTemplateTotal textPins.length cfg.circlesPerPage duplicate =
        textPins.length) ∧
    (∀ ops, SlotEv.draw ops ∈ coreTemplateTrace textPins cfg duplicate bg bc bw →
      ∀ a b u v, DrawOp.imageRect a b u v ∉ ops) ∧
    drawCount (legacyTemplateTrace texts cfg bg bc bw) =
      legacyTemplateTotal texts.length cfg.circlesPerPage ∧
    (texts = [] →
      legacyTemplateTotal texts.length cfg.circlesPerPage = cfg.circlesPerPage) ∧
    (texts ≠ [] →
      legacyTemplateTotal texts.length cfg.circlesPerPage =
        max texts.length cfg.circlesPerPage) ∧
    (∀ ops, SlotEv.draw ops ∈ legacyTemplateTrace texts cfg bg bc bw →
      ∀ a b u v, DrawOp.imageRect a b u v ∉ ops) := by
  refine ⟨coreTemplateTrace_drawCount textPins cfg duplicate bg bc bw, ?_, ?_, ?_,
    coreTemplateTrace_no_image textPins cfg duplicate bg bc bw,
    legacyTemplateTrace_drawCount texts cfg bg bc bw, ?_, ?_,
    legacyTemplateTrace_no_image texts cfg bg bc bw⟩
  · intro h
    subst h
    simp [coreTemplateTotal]
  · intro h hd
    subst hd
    rw [coreTemplateTotal, if_pos ⟨by simpa [List.length_pos] using h, rfl⟩]
  · intro h hd
    subst hd
    rw [coreTemplateTotal, if_neg (by simp), if_pos (by simpa [List.length_pos] using h)]
  · intro h
    subst h
    simp [legacyTemplateTotal]
  · intro h
    rw [legacyTemplateTotal, if_pos (by simpa [List.length_pos] using h)]

/-- Witness for the amended C4 with one text block, duplicating, on the 32mm profile. -/
theorem c4_template_slot_count_amended_witness :
    drawCount (coreTemplateTrace c4OnePin PIN_CONFIG_32 true "" "" 0) =
      coreTemplateTotal c4OnePin.length PIN_CONFIG_32.circlesPerPage true ∧
    (c4OnePin = [] →
      coreTemplateTotal c4OnePin.length PIN_CONFIG_32.circlesPerPage true =
        PIN_CONFIG_32.circlesPerPage) ∧
    (c4OnePin ≠ [] → true = true →
      coreTemplateTotal c4OnePin.length PIN_CONFIG_32.circlesPerPage true =
        max c4OnePin.length PIN_CONFIG_32.circlesPerPage) ∧
    (c4OnePin ≠ [] → true = false →
      coreTemplateTotal c4OnePin.length PIN_CONFIG_32.circlesPerPage true =
        c4OnePin.length) ∧
    (∀ ops, SlotEv.draw ops ∈ coreTemplateTrace c4OnePin PIN_CONFIG_32 true "" "" 0 →
      ∀ a b u v, DrawOp.imageRect a b u v ∉ ops) ∧
    drawCount (legacyTemplateTrace ["A"] PIN_CONFIG_32 "" "" 0) =
      legacyTemplateTotal (["A"] : List String).length PIN_CONFIG_32.circlesPerPage ∧
    ((["A"] : List String) = [] →
      legacyTemplateTotal (["A"] : List String).length PIN_CONFIG_32.circlesPerPage =
        PIN_CONFIG_32.circlesPerPage) ∧
    ((["A"] : List String) ≠ [] →
      legacyTemplateTotal (["A"] : List String).length PIN_CONFIG_32.circlesPerPage =
        max (["A"] : List String).length PIN_CONFIG_32.circlesPerPage) ∧
    (∀ ops, SlotEv.draw ops ∈ legacyTemplateTrace ["A"] PIN_CONFIG_32 "" "" 0 →
      ∀ a b u v, DrawOp.imageRect a b u v ∉ ops) :=
  c4_template_slot_count_amended c4OnePin ["A"] PIN_CONFIG_32 true "" "" 0

/-- C10: the no-images branch of the legacy generator adds exactly one page for every
input; it still renders one slot per layout position, and when `texts.length` exceeds
`circlesPerPage` the position at index `circlesPerPage` carries page index 1 yet its
draw call (with those later-page coordinates) is part of the single-page trace. -/
theorem c10_legacy_template_single_page (texts : List String) (cfg : PinConfig)
    (hcpp : 0 < cfg.circlesPerPage) (bg bc : String) (bw : ℚ) :
    addPageCount (legacyTemplateTrace texts cfg bg bc bw) = 1 ∧
    drawCount (legacyTemplateTrace texts cfg bg bc bw) =
      legacyTemplateTotal texts.length cfg.circlesPerPage ∧
    (cfg.circlesPerPage < texts.length →
      ((calculateLayout (legacyTemplateTotal texts.length cfg.circlesPerPage) cfg).getD
        cfg.circlesPerPage defaultPos).page = 1 ∧
      SlotEv.draw (drawEmptyCircleLegacyOps
        ((calculateLayout (legacyTemplateTotal texts.length cfg.circlesPerPage) cfg).getD
          cfg.circlesPerPage defaultPos).x
        ((calculateLayout (legacyTemplateTotal texts.length cfg.circlesPerPage) cfg).getD
          cfg.circlesPerPage defaultPos).y
        cfg.pinSizePt cfg.circleSizePt bg bc (bw * mmToPt)
        (texts.getD cfg.circlesPerPage "")) ∈ legacyTemplateTrace texts cfg bg bc bw) := by
  refine ⟨legacyTemplateTrace_addPageCount texts cfg bg bc bw,
    legacyTemplateTrace_drawCount texts cfg bg bc bw, ?_⟩
  intro hlt
  have htot : legacyTemplateTotal texts.length cfg.circlesPerPage = texts.length := by
    rw [legacyTemplateTotal, if_pos (by omega)]
    omega
  have hlen : (calculateLayout (legacyTemplateTotal texts.length cfg.circlesPerPage)
      cfg).length = legacyTemplateTotal texts.length cfg.circlesPerPage :=
    calculateLayout_length _ cfg hcpp
  have hidx : cfg.circlesPerPage <
      (calculateLayout (legacyTemplateTotal texts.length cfg.circlesPerPage) cfg).length := by
    omega
  constructor
  · have hget := calculateLayout_page_get (legacyTemplateTotal texts.length
      cfg.circlesPerPage) cfg hcpp cfg.circlesPerPage hidx
    rw [List.getD_eq_getElem?_getD, List.getElem?_eq_getElem hidx]
    rw [Nat.div_self hcpp] at hget
    simpa using hget
  · simp only [legacyTemplateTrace]
    refine List.mem_cons_of_mem _ (List.mem_cons_of_mem _ ?_)
    exact List.mem_map_of_mem _ (List.mem_range.mpr (by omega))

/-- Witness for C10 with 25 text labels on the 32mm profile (20 per page). -/
theorem c10_legacy_template_single_page_witness :
    addPageCount (legacyTemplateTrace (List.replicate 25 "T") PIN_CONFIG_32 "" "" 0) = 1 ∧
    drawCount (legacyTemplateTrace (List.replicate 25 "T") PIN_CONFIG_32 "" "" 0) =
      legacyTemplateTotal (List.replicate 25 "T").length PIN_CONFIG_32.circlesPerPage ∧
    (PIN_CONFIG_32.circlesPerPage < (List.replicate 25 "T").length →
      ((calculateLayout (legacyTemplateTotal (List.replicate 25 "T").length
          PIN_CONFIG_32.circlesPerPage) PIN_CONFIG_32).getD
        PIN_CONFIG_32.circlesPerPage defaultPos).page = 1 ∧
      SlotEv.draw (drawEmptyCircleLegacyOps
        ((calculateLayout (legacyTemplateTotal (List.replicate 25 "T").length
            PIN_CONFIG_32.circlesPerPage) PIN_CONFIG_32).getD
          PIN_CONFIG_32.circlesPerPage defaultPos).x
        ((calculateLayout (legacyTemplateTotal (List.replicate 25 "T").length
            PIN_CONFIG_32.circlesPerPage) PIN_CONFIG_32).getD
          PIN_CONFIG_32.circlesPerPage defaultPos).y
        PIN_CONFIG_32.pinSizePt PIN_CONFIG_32.circleSizePt "" "" (0 * mmToPt)
        ((List.replicate 25 "T").getD PIN_CONFIG_32.circlesPerPage "")) ∈
        legacyTemplateTrace (List.replicate 25 "T") PIN_CONFIG_32 "" "" 0) :=
  c10_legacy_template_single_page (List.replicate 25 "T") PIN_CONFIG_32 (by decide) "" "" 0

lemma processAll_error_of_bad {fill : Bool} {l : List ImageInput}
    (h : ∃ img ∈ l, ¬(img.readable = true ∧ 0 < img.width ∧ 0 < img.height)) :
    ∃ e, processAll fill l = Except.error e := by
  induction l with
  | nil => simp at h
  | cons a l ih =>
    rcases h with ⟨img, hmem, hbad⟩
    rcases List.mem_cons.mp hmem with rfl | hmem2
    · refine ⟨"image processing failed", ?_⟩
      rw [processAll, processImageE, if_neg hbad]
    · rcases ih ⟨img, hmem2, hbad⟩ with ⟨e, he⟩
      cases hp : processImageE fill a with
      | error e2 => exact ⟨e2, by rw [processAll, hp]⟩
      | ok p => exact ⟨e, by rw [processAll, hp, he]⟩

/-- C8: if processing any input image fails (unreadable file or zero dimensions), the
whole generation aborts with an error and the trace of output events is empty — in
particular no page or drawing is emitted and the output stream is never opened,
because the generator processes every image before creating the document. -/
theorem c8_failure_no_partial_output (images : List ImageInput) (cfg : PinConfig)
    (fill duplicate : Bool) (bg bc : String) (bw : ℚ) (textPins : List TextPin)
    (h : ∃ img ∈ images, ¬(img.readable = true ∧ 0 < img.width ∧ 0 < img.height)) :
    (generateImagesTrace images cfg fill duplicate bg bc bw textPins).1 = [] ∧
    (generateImagesTrace images cfg fill duplicate bg bc bw textPins).2.isSome = true := by
  rcases @processAll_error_of_bad fill images h with ⟨e, he⟩
  constructor <;> simp [generateImagesTrace, he]

/-- An unreadable input image, C8's concrete failing input. -/
def c8BadImage : ImageInput :=
  { readable := false, width := 5, height := 5, edge := (0, 0, 0) }

/-- Witness for C8 with one unreadable image. -/
theorem c8_failure_no_partial_output_witness :
    (∃ img ∈ [c8BadImage],
      ¬(img.readable = true ∧ 0 < img.width ∧ 0 < img.height)) ∧
    (generateImagesTrace [c8BadImage] PIN_CONFIG_32 true false "" "" 0 []).1 = [] ∧
    (generateImagesTrace [c8BadImage] PIN_CONFIG_32 true false "" "" 0 []).2.isSome = true :=
  ⟨⟨c8BadImage, by decide, by decide⟩,
   c8_failure_no_partial_output [c8BadImage] PIN_CONFIG_32 true false "" "" 0 []
     ⟨c8BadImage, by decide, by decide⟩⟩

/-- A raster image as the Canvas API exposes it: integer dimensions and per-pixel
RGBA channel values (each `0..255`). -/
structure Bitmap where
  width : ℕ
  height : ℕ
  red : ℕ → ℕ → ℕ
  green : ℕ → ℕ → ℕ
  blue : ℕ → ℕ → ℕ
  alpha : ℕ → ℕ → ℕ

/-- Accumulate `(totalR, totalG, totalB, pixelCount)` over a list of sample points,
counting only pixels whose alpha exceeds the threshold — the common inner loop of both
`extractEdgeColor` variants. -/
def sampleAcc (img : Bitmap) (threshold : ℕ) (st : ℕ × ℕ × ℕ × ℕ)
    (pts : List (ℕ × ℕ)) : ℕ × ℕ × ℕ × ℕ :=
  pts.foldl (fun st pt =>
    if threshold < img.alpha pt.1 pt.2 then
      (st.1 + img.red pt.1 pt.2, st.2.1 + img.green pt.1 pt.2,
       st.2.2.1 + img.blue pt.1 pt.2, st.2.2.2 + 1)
    else st) st

/-- Sample points of the single-ring `extractEdgeColor` (`src/unnamed/part_005`
lines 6-82): top row, bottom row, then left and right columns without the corners. -/
def edgePoints (w h : ℕ) : List (ℕ × ℕ) :=
  (List.range w).map (fun x => (x, 0)) ++
  (List.range w).map (fun x => (x, h - 1)) ++
  (List.range (h - 2)).map (fun y => (0, y + 1)) ++
  (List.range (h - 2)).map (fun y => (w - 1, y + 1))

/-- Embedding of the single-ring `extractEdgeColor` (`src/unnamed/part_005`
lines 6-82): alpha threshold 10, fallback black.  The Canvas `getImageData` calls can
throw: `getImageData(sx, sy, sw, sh)` raises `IndexSizeError` when `sw` or `sh` is
zero, while a negative extent only flips the rectangle.  Here `getImageData(0, 0,
width, 1)` (line 22) has `sw = 0` iff `width = 0`, and `getImageData(0, 1, 1,
height - 2)` (line 48) has `sh = 0` iff `height = 2` — those calls throw; for
`height < 2` the extent is negative and the following loop body runs zero times.
Since the sampling itself is pure, the two zero-extent checks are hoisted ahead of
it; the sample-point list uses truncated subtraction, which agrees with the JS loop
bounds on every non-throwing input. -/
def extractEdgeColor005 (img : Bitmap) : Except String (ℤ × ℤ × ℤ) :=
  if img.width = 0 then Except.error "IndexSizeError"
  else if img.height = 2 then Except.error "IndexSizeError"
  else
    let st := sampleAcc img 10 (0, 0, 0, 0) (edgePoints img.width img.height)
    if st.2.2.2 = 0 then Except.ok (0, 0, 0)
    else Except.ok (jsRound ((st.1 : ℚ) / st.2.2.2), jsRound ((st.2.1 : ℚ) / st.2.2.2),
      jsRound ((st.2.2.1 : ℚ) / st.2.2.2))

/-- `Math.min(width, height) * 0.1` (`src/unnamed/part_004` line 21). -/
def maxInset004 (w h : ℕ) : ℚ := (min w h : ℚ) * (1/10)

/-- `Math.max(1, Math.floor(maxInset / 5))` (`src/unnamed/part_004` line 22). -/
def insetStep004 (w h : ℕ) : ℕ := max 1 (⌊maxInset004 w h / 5⌋).toNat

/-- Number of iterations of the inward-ring loop `for (inset = 0; inset <= maxInset;
inset += insetStep)`: the inset values are `0, s, 2s, …` up to `maxInset`. -/
def insetCount004 (w h : ℕ) : ℕ :=
  (⌊maxInset004 w h / (insetStep004 w h : ℚ)⌋).toNat + 1

/-- Sample points of one inward ring of `extractEdgeColor` (`src/unnamed/part_004`
lines 25-90), with the source's guards on each edge. -/
def ringPoints (w h inset : ℕ) : List (ℕ × ℕ) :=
  (if inset < h then (List.range (w - inset * 2)).map (fun x => (inset + x, inset))
   else []) ++
  (if inset < h then
    (List.range (w - inset * 2)).map (fun x => (inset + x, h - 1 - inset)) else []) ++
  (if inset < w ∧ 0 < h - inset * 2 - 2 then
    (List.range (h - inset * 2 - 2)).map (fun y => (inset, inset + 1 + y)) else []) ++
  (if inset < w ∧ 0 < h - inset * 2 - 2 then
    (List.range (h - inset * 2 - 2)).map (fun y => (w - 1 - inset, inset + 1 + y))
   else [])

/-- Embedding of the inward-stepping `extractEdgeColor` (`src/unnamed/part_004`
lines 7-102): alpha threshold 128, up to `insetCount004` rings, stopping early once
100 opaque samples are collected, fallback white. -/
def extractEdgeColor004 (img : Bitmap) : ℤ × ℤ × ℤ :=
  let s := insetStep004 img.width img.height
  let st := (List.range (insetCount004 img.width img.height)).foldl
    (fun st k =>
      if st.2.2.2 < 100 then sampleAcc img 128 st (ringPoints img.width img.height (k * s))
      else st) (0, 0, 0, 0)
  if st.2.2.2 = 0 then (255, 255, 255)
  else (jsRound ((st.1 : ℚ) / st.2.2.2), jsRound ((st.2.1 : ℚ) / st.2.2.2),
    jsRound ((st.2.2.1 : ℚ) / st.2.2.2))

lemma sampleAcc_transparent (img : Bitmap) (hα : ∀ x y, img.alpha x y = 0)
    (threshold : ℕ) (st : ℕ × ℕ × ℕ × ℕ) (pts : List (ℕ × ℕ)) :
    sampleAcc img threshold st pts = st := by
  induction pts generalizing st with
  | nil => rfl
  | cons p pts ih =>
    rw [sampleAcc, List.foldl_cons]
    rw [hα p.1 p.2]
    rw [if_neg (Nat.not_lt_zero threshold)]
    exact ih st

/-- A fully transparent 3×2 bitmap: exactly the height at which the single-ring
sampler's `getImageData(0, 1, 1, height - 2)` call has a zero extent. -/
def c7ThinTransparent : Bitmap :=
  { width := 3, height := 2, red := fun _ _ => 0, green := fun _ _ => 0,
    blue := fun _ _ => 0, alpha := fun _ _ => 0 }

/-- Refutation of C7 as stated: on the fully transparent 3×2 image, the single-ring
`extractEdgeColor` of part_005 does not return its fallback colour — its
`getImageData(0, 1, 1, height - 2)` call (line 48) has a zero height and throws
`IndexSizeError`, so the sampler fails instead of terminating with a constant. -/
theorem c7_transparent_edge_fallback_counterexample :
    (∀ x y, c7ThinTransparent.alpha x y = 0) ∧
    extractEdgeColor005 c7ThinTransparent = Except.error "IndexSizeError" :=
  ⟨fun _ _ => rfl, rfl⟩

/-- C7 amended: on an image whose every pixel is fully transparent (with positive
width, as every real `ImageBitmap` has), the inward-stepping sampler of part_004
always terminates without throwing and returns its fixed fallback white
`(255,255,255)`; the single-ring sampler of part_005 returns its fixed fallback black
`(0,0,0)` whenever the image height is not exactly 2, and throws `IndexSizeError`
(from `getImageData(0, 1, 1, height - 2)`) when the height is exactly 2. -/
theorem c7_transparent_edge_fallback_amended (img : Bitmap)
    (hα : ∀ x y, img.alpha x y = 0) (hw : 0 < img.width) :
    extractEdgeColor004 img = (255, 255, 255) ∧
    (img.height ≠ 2 → extractEdgeColor005 img = Except.ok (0, 0, 0)) ∧
    (img.height = 2 → extractEdgeColor005 img = Except.error "IndexSizeError") := by
  refine ⟨?_, ?_, ?_⟩
  · rw [extractEdgeColor004]
    have hfold : ∀ (l : List ℕ),
        l.foldl (fun st k =>
          if st.2.2.2 < 100 then
            sampleAcc img 128 st (ringPoints img.width img.height
              (k * insetStep004 img.width img.height))
          else st) ((0, 0, 0, 0) : ℕ × ℕ × ℕ × ℕ) = (0, 0, 0, 0) := by
      intro l
      induction l with
      | nil => rfl
      | cons a l ih =>
        rw [List.foldl_cons, if_pos (by decide), sampleAcc_transparent img hα]
        exact ih
    rw [hfold]
    rfl
  · intro h2
    rw [extractEdgeColor005, if_neg (by omega), if_neg h2,
      sampleAcc_transparent img hα]
    rfl
  · intro h2
    rw [extractEdgeColor005, if_neg (by omega), if_pos h2]

/-- A small fully transparent bitmap, C7's well-formed concrete instance. -/
def c7Transparent : Bitmap :=
  { width := 3, height := 3, red := fun _ _ => 0, green := fun _ _ => 0,
    blue := fun _ _ => 0, alpha := fun _ _ => 0 }

/-- Witness for the amended C7 on a 3×3 fully transparent bitmap. -/
theorem c7_transparent_edge_fallback_amended_witness :
    extractEdgeColor004 c7Transparent = (255, 255, 255) ∧
    (c7Transparent.height ≠ 2 → extractEdgeColor005 c7Transparent = Except.ok (0, 0, 0)) ∧
    (c7Transparent.height = 2 →
      extractEdgeColor005 c7Transparent = Except.error "IndexSizeError") :=
  c7_transparent_edge_fallback_amended c7Transparent (fun _ _ => rfl) (by decide)

/-- An image in continuous page coordinates: a partial pixel function, `none` being
transparent.  This idealises canvas rasters (sub-pixel sampling is exact rather than
interpolated), which is faithful for the geometric content of the transform. -/
def Img (α : Type) := ℚ → ℚ → Option α

/-- A source bitmap of size `w × h`: defined on `[0, w) × [0, h)`. -/
def bitmapImg {α : Type} (w h : ℚ) (pix : ℚ → ℚ → α) : Img α := fun x y =>
  if 0 ≤ x ∧ x < w ∧ 0 ≤ y ∧ y < h then some (pix x y) else none

/-- A square canvas of side `s` holding `f`: reads outside the canvas are transparent. -/
def clipSquare {α : Type} (s : ℚ) (f : Img α) : Img α := fun x y =>
  if 0 ≤ x ∧ x < s ∧ 0 ≤ y ∧ y < s then f x y else none

/-- Canvas `drawImage(src, sx, sy, sw, sh, dx, dy, dw, dh)`: the source rectangle is
scaled onto the destination rectangle; destination pixels outside it are transparent. -/
def drawImageScaled {α : Type} (src : Img α) (sx sy sw sh dx dy dw dh : ℚ) : Img α :=
  fun px py =>
    if dx ≤ px ∧ px < dx + dw ∧ dy ≤ py ∧ py < dy + dh then
      src (sx + (px - dx) * sw / dw) (sy + (py - dy) * sh / dh)
    else none

/-- A produced raster: its side length and contents. -/
structure ProcessedImage (α : Type) where
  size : ℚ
  img : Img α

/-- Embedding of `processImageForCircle` (`src/unnamed/part_004` lines 114-212, same
code in part_005): resize the source to fit the zoomed boundary square (contain mode,
centred), composite onto a working canvas at the offset, extract the centred
boundary-size viewport, and centre-crop to the pin diameter when the cutting circle is
larger. -/
def processImageForCircle {α : Type} (bw bh : ℚ) (pix : ℚ → ℚ → α)
    (pinDiameter circleDiameter zoom offsetX offsetY : ℚ) : ProcessedImage α :=
  let boundarySize : ℚ := (jsRound circleDiameter : ℤ)
  let zoomedSize : ℚ := (jsRound (boundarySize * zoom) : ℤ)
  let scale := min (zoomedSize / bw) (zoomedSize / bh)
  let scaledWidth := bw * scale
  let scaledHeight := bh * scale
  let rx := (zoomedSize - scaledWidth) / 2
  let ry := (zoomedSize - scaledHeight) / 2
  let resizeCanvas := clipSquare zoomedSize
    (drawImageScaled (bitmapImg bw bh pix) 0 0 bw bh rx ry scaledWidth scaledHeight)
  if 1 ≤ zoom ∨ offsetX ≠ 0 ∨ offsetY ≠ 0 then
    let canvasSize : ℚ :=
      if 1 ≤ zoom then zoomedSize else (jsRound (boundarySize * (3/2)) : ℤ)
    let imageLeft : ℚ := (jsRound ((canvasSize - zoomedSize) / 2 + offsetX) : ℤ)
    let imageTop : ℚ := (jsRound ((canvasSize - zoomedSize) / 2 + offsetY) : ℤ)
    let workCanvas := clipSquare canvasSize
      (drawImageScaled resizeCanvas 0 0 zoomedSize zoomedSize imageLeft imageTop
        zoomedSize zoomedSize)
    let extractLeft : ℚ := (jsRound ((canvasSize - boundarySize) / 2) : ℤ)
    let viewportCanvas := clipSquare boundarySize
      (drawImageScaled workCanvas extractLeft extractLeft boundarySize boundarySize
        0 0 boundarySize boundarySize)
    if pinDiameter < circleDiameter then
      let cropOffset : ℚ := (jsRound ((circleDiameter - pinDiameter) / 2) : ℤ)
      let finalSize : ℚ := (jsRound pinDiameter : ℤ)
      { size := finalSize
        img := clipSquare finalSize
          (drawImageScaled viewportCanvas cropOffset cropOffset finalSize finalSize
            0 0 finalSize finalSize) }
    else { size := boundarySize, img := viewportCanvas }
  else
    let left : ℚ := (jsRound ((boundarySize - zoomedSize) / 2) : ℤ)
    { size := boundarySize
      img := clipSquare boundarySize
        (drawImageScaled resizeCanvas 0 0 zoomedSize zoomedSize left left
          zoomedSize zoomedSize) }

/-- Embedding of the CLI `processImage` resize (`src/src/core/pdf-generator.ts`
lines 64-85): sharp's `resize(round(pinDiameter), round(pinDiameter), fit contain)`
with a transparent background — contain-fit, centred, letterboxed. -/
def processImageSharp {α : Type} (bw bh : ℚ) (pix : ℚ → ℚ → α) (pinDiameter : ℚ) :
    ProcessedImage α :=
  let target : ℚ := (jsRound pinDiameter : ℤ)
  let scale := min (target / bw) (target / bh)
  let scaledWidth := bw * scale
  let scaledHeight := bh * scale
  let dx := (target - scaledWidth) / 2
  let dy := (target - scaledHeight) / 2
  { size := target
    img := clipSquare target
      (drawImageScaled (bitmapImg bw bh pix) 0 0 bw bh dx dy scaledWidth scaledHeight) }

/-- Refutation of C6 as stated: feeding a square source of side `pinSizePt` into the
web transform `processImageForCircle` with `zoom = 1`, `offsetX = offsetY = 0` (32mm
web profile) does not reproduce the source: the output pixel at the origin samples the
source at `(510237/61000, 510237/61000)` — the source scaled up to the boundary size
and centre-cropped — not at `(0, 0)`, and the output side length is `round(pinSizePt)`,
not `pinSizePt`. -/
theorem c6_identity_counterexample :
    (processImageForCircle WEB_PIN_CONFIG_32.pinSizePt WEB_PIN_CONFIG_32.pinSizePt
        (fun x y => (x, y)) WEB_PIN_CONFIG_32.pinSizePt WEB_PIN_CONFIG_32.circleSizePt
        1 0 0).img 0 0 =
      some ((510237 : ℚ)/61000, (510237 : ℚ)/61000) ∧
    bitmapImg WEB_PIN_CONFIG_32.pinSizePt WEB_PIN_CONFIG_32.pinSizePt
        (fun x y => (x, y)) 0 0 = some ((0 : ℚ), (0 : ℚ)) ∧
    (processImageForCircle WEB_PIN_CONFIG_32.pinSizePt WEB_PIN_CONFIG_32.pinSizePt
        (fun x y => (x, y)) WEB_PIN_CONFIG_32.pinSizePt WEB_PIN_CONFIG_32.circleSizePt
        1 0 0).img 0 0 ≠
      bitmapImg WEB_PIN_CONFIG_32.pinSizePt WEB_PIN_CONFIG_32.pinSizePt
        (fun x y => (x, y)) 0 0 ∧
    (processImageForCircle WEB_PIN_CONFIG_32.pinSizePt WEB_PIN_CONFIG_32.pinSizePt
        (fun x y => (x, y)) WEB_PIN_CONFIG_32.pinSizePt WEB_PIN_CONFIG_32.circleSizePt
        1 0 0).size ≠ WEB_PIN_CONFIG_32.pinSizePt := by
  have h1 : (processImageForCircle WEB_PIN_CONFIG_32.pinSizePt WEB_PIN_CONFIG_32.pinSizePt
      (fun x y => (x, y)) WEB_PIN_CONFIG_32.pinSizePt WEB_PIN_CONFIG_32.circleSizePt
      1 0 0).img 0 0 = some ((510237 : ℚ)/61000, (510237 : ℚ)/61000) := by
    norm_num [processImageForCircle, clipSquare, drawImageScaled, bitmapImg, jsRound,
      WEB_PIN_CONFIG_32, mmToPt, Int.floor_eq_iff]
  have h2 : bitmapImg WEB_PIN_CONFIG_32.pinSizePt WEB_PIN_CONFIG_32.pinSizePt
      (fun x y => (x, y)) 0 0 = some ((0 : ℚ), (0 : ℚ)) := by
    norm_num [bitmapImg, WEB_PIN_CONFIG_32, mmToPt]
  have h3 : (processImageForCircle WEB_PIN_CONFIG_32.pinSizePt WEB_PIN_CONFIG_32.pinSizePt
      (fun x y => (x, y)) WEB_PIN_CONFIG_32.pinSizePt WEB_PIN_CONFIG_32.circleSizePt
      1 0 0).size = (102 : ℚ) := by
    norm_num [processImageForCircle, jsRound, WEB_PIN_CONFIG_32, mmToPt, Int.floor_eq_iff]
  refine ⟨h1, h2, ?_, ?_⟩
  · rw [h1, h2]
    intro h
    have := (Prod.mk.injEq _ _ _ _).mp (Option.some_inj.mp h)
    norm_num at this
  · rw [h3]
    norm_num [WEB_PIN_CONFIG_32, mmToPt]

lemma processImageSharp_square_id {α : Type} (pix : ℚ → ℚ → α) (pinD : ℚ)
    (ht : 0 < ((jsRound pinD : ℤ) : ℚ)) :
    (processImageSharp ((jsRound pinD : ℤ) : ℚ) ((jsRound pinD : ℤ) : ℚ)
      pix pinD).size = ((jsRound pinD : ℤ) : ℚ) ∧
    ∀ x y, (processImageSharp ((jsRound pinD : ℤ) : ℚ) ((jsRound pinD : ℤ) : ℚ)
        pix pinD).img x y =
      bitmapImg ((jsRound pinD : ℤ) : ℚ) ((jsRound pinD : ℤ) : ℚ) pix x y := by
  set t : ℚ := ((jsRound pinD : ℤ) : ℚ) with hdef
  have hs : min (t / t) (t / t) = 1 := by rw [min_self, div_self (ne_of_gt ht)]
  refine ⟨rfl, ?_⟩
  intro x y
  show clipSquare t (drawImageScaled (bitmapImg t t pix) 0 0 t t
    ((t - t * min (t / t) (t / t)) / 2) ((t - t * min (t / t) (t / t)) / 2)
    (t * min (t / t) (t / t)) (t * min (t / t) (t / t))) x y = bitmapImg t t pix x y
  rw [hs, mul_one, sub_self, zero_div]
  rw [clipSquare, drawImageScaled, bitmapImg]
  by_cases hin : 0 ≤ x ∧ x < t ∧ 0 ≤ y ∧ y < t
  · rw [if_pos hin, if_pos (by obtain ⟨h1, h2, h3, h4⟩ := hin; exact
      ⟨h1, by linarith, h3, by linarith⟩)]
    rw [bitmapImg]
    have hx : 0 + (x - 0) * t / t = x := by
      field_simp
    have hy : 0 + (y - 0) * t / t = y := by
      field_simp
    rw [hx, hy]
  · rw [if_neg hin]
    simp only [bitmapImg]
    rw [if_neg hin]

/-- C6 amended: the identity round-trip holds for the CLI `processImage` contain-resize
— a perfectly square source whose side equals the realizable `round(pinDiameter)` is
reproduced unmodified (both shipped profiles); it does not hold for the web
`processImageForCircle`, which at `zoom = 1, offset = 0` scales the source to the
cutting-circle boundary and centre-crops to the pin size (see the counterexample). -/
theorem c6_identity_amended {α : Type} (pix : ℚ → ℚ → α) (cfg : PinConfig)
    (hcfg : cfg = PIN_CONFIG_32 ∨ cfg = PIN_CONFIG_58) :
    (processImageSharp ((jsRound cfg.pinSizePt : ℤ) : ℚ) ((jsRound cfg.pinSizePt : ℤ) : ℚ)
      pix cfg.pinSizePt).size = ((jsRound cfg.pinSizePt : ℤ) : ℚ) ∧
    ∀ x y, (processImageSharp ((jsRound cfg.pinSizePt : ℤ) : ℚ)
        ((jsRound cfg.pinSizePt : ℤ) : ℚ) pix cfg.pinSizePt).img x y =
      bitmapImg ((jsRound cfg.pinSizePt : ℤ) : ℚ) ((jsRound cfg.pinSizePt : ℤ) : ℚ)
        pix x y := by
  apply processImageSharp_square_id
  rcases hcfg with rfl | rfl
  · have h : jsRound PIN_CONFIG_32.pinSizePt = 91 := by
      norm_num [jsRound, PIN_CONFIG_32, mmToPt, Int.floor_eq_iff]
    rw [h]
    norm_num
  · have h : jsRound PIN_CONFIG_58.pinSizePt = 164 := by
      norm_num [jsRound, PIN_CONFIG_58, mmToPt, Int.floor_eq_iff]
    rw [h]
    norm_num

/-- Witness for the amended C6 at the 32mm CLI profile with a labelled-pixel source. -/
theorem c6_identity_amended_witness :
    (processImageSharp ((jsRound PIN_CONFIG_32.pinSizePt : ℤ) : ℚ)
      ((jsRound PIN_CONFIG_32.pinSizePt : ℤ) : ℚ) (fun x y => (x, y))
      PIN_CONFIG_32.pinSizePt).size = ((jsRound PIN_CONFIG_32.pinSizePt : ℤ) : ℚ) ∧
    ∀ x y, (processImageSharp ((jsRound PIN_CONFIG_32.pinSizePt : ℤ) : ℚ)
        ((jsRound PIN_CONFIG_32.pinSizePt : ℤ) : ℚ) (fun x y => (x, y))
        PIN_CONFIG_32.pinSizePt).img x y =
      bitmapImg ((jsRound PIN_CONFIG_32.pinSizePt : ℤ) : ℚ)
        ((jsRound PIN_CONFIG_32.pinSizePt : ℤ) : ℚ) (fun x y => (x, y)) x y :=
  c6_identity_amended (fun x y => (x, y)) PIN_CONFIG_32 (Or.inl rfl)

end Pinmaker
